import Mathlib

/-!
Verification of the interactive visual-preview core of the PART2LIB
repository (`src/components/VisualPreview.tsx`, `src/types.ts`,
`src/App.tsx`).

Strings handled by the footprint-text scanner are embedded as `List Char`.
JavaScript numbers are embedded as `Option ℚ`: `some q` is the rational
value `q`, `none` is `NaN` (the value `parseFloat` returns on failure).
The geometry/layout components, which in the source operate on ordinary
finite numbers, are stated over `ℚ` directly.
-/

namespace PartLib

/-! ## Character classes used by the regular expressions

`\w` (and `[\w\d]`) of JavaScript is `[A-Za-z0-9_]`; the number class in
both regexes is the literal class `[-0-9.]`; `\s` covers the whitespace
characters relevant to this program's inputs (space, tab, newline,
carriage return, vertical tab, form feed). -/

def isWordChar (c : Char) : Bool :=
  (('a' ≤ c && c ≤ 'z') || ('A' ≤ c && c ≤ 'Z') || ('0' ≤ c && c ≤ '9') || c = '_')

def isNumChar (c : Char) : Bool :=
  (c = '-' || c = '.' || ('0' ≤ c && c ≤ '9'))

def isSpaceChar (c : Char) : Bool :=
  (c = ' ' || c = '\t' || c = '\n' || c = '\r' || c = Char.ofNat 11 || c = Char.ofNat 12)

/-! ## JavaScript `parseFloat` on regex captures

The numeric captures of both regexes are nonempty strings over `[-0-9.]`,
so no exponents, signs after the first character, or whitespace can occur.
On that sublanguage `parseFloat` reads an optional leading minus, then the
longest prefix of the form `digits`, `digits.digits`, or `.digits`; if no
digit occurs in that prefix the result is `NaN` (`none` here). -/

/-- Value of a digit string, most significant first. -/
def digitsN (l : List Char) : ℕ :=
  l.foldl (fun acc c => acc * 10 + (c.toNat - 48)) 0

/-- The decimal parts read by `parseFloat` from an unsigned numeral:
integer-part value, fraction-part value, and fraction length (`none` when
no digit occurs, i.e. NaN). -/
def parseUnsignedParts (s : List Char) : Option (ℕ × ℕ × ℕ) :=
  let ip := s.takeWhile Char.isDigit
  match s.drop ip.length with
  | c :: r2 =>
    if c = '.' then
      let fp := r2.takeWhile Char.isDigit
      if ip.isEmpty && fp.isEmpty then none
      else some (digitsN ip, digitsN fp, fp.length)
    else if ip.isEmpty then none else some (digitsN ip, 0, 0)
  | [] => if ip.isEmpty then none else some (digitsN ip, 0, 0)

/-- Sign and decimal parts read by `parseFloat`. -/
def jsParseParts (s : List Char) : Option (Bool × ℕ × ℕ × ℕ) :=
  match s with
  | c :: r =>
    if c = '-' then (parseUnsignedParts r).map (fun p => (true, p))
    else (parseUnsignedParts (c :: r)).map (fun p => (false, p))
  | [] => (parseUnsignedParts []).map (fun p => (false, p))

def partsVal (p : Bool × ℕ × ℕ × ℕ) : ℚ :=
  let v : ℚ := (p.2.1 : ℚ) + (p.2.2.1 : ℚ) / (10 : ℚ) ^ p.2.2.2
  if p.1 then -v else v

def jsParseFloat (s : List Char) : Option ℚ :=
  (jsParseParts s).map partsVal

/-! ## Scanning combinators

These functions implement, specialised to the two patterns of
`Footprint2D`, exactly the backtracking behaviour of the JavaScript
regular expressions

  pad:  `\(pad\s+("?[\w\d]+"?)[\s\S]*?\(at\s+([-0-9.]+)\s+([-0-9.]+)`
        `(?:\s+[-0-9.]+)?\)[\s\S]*?\(size\s+([-0-9.]+)\s+([-0-9.]+)\)`
  line: `\(fp_line\s+\(start\s+([-0-9.]+)\s+([-0-9.]+)\)\s+`
        `\(end\s+([-0-9.]+)\s+([-0-9.]+)\)`

run with the `g` flag in an `exec` loop.  Greedy character-class
repetitions are maximal munches (no later pattern element can consume a
character of the same class, so backtracking never shrinks them), and the
lazy gaps `[\s\S]*?` become least-position searches with the one genuine
backtracking point: if no size record follows a candidate at record, the
next at candidate is tried. -/

def eatChar (c : Char) (s : List Char) : Option (List Char) :=
  match s with
  | d :: r => if d = c then some r else none
  | [] => none

def eatLit : List Char → List Char → Option (List Char)
  | [], s => some s
  | c :: p, s =>
    match eatChar c s with
    | some r => eatLit p r
    | none => none

def takeWhile1 (f : Char → Bool) (s : List Char) : Option (List Char × List Char) :=
  let t := s.takeWhile f
  if t.isEmpty then none else some (t, s.drop t.length)

/-- `"?[\w\d]+"?` after an optional leading quote was consumed: one or
more word characters (maximal munch), then a greedy optional quote. -/
def matchIdBody (s : List Char) : Option (List Char × List Char) :=
  (takeWhile1 isWordChar s).bind fun pw =>
    match eatChar '"' pw.2 with
    | some r3 => some (pw.1 ++ ['"'], r3)
    | none => some (pw.1, pw.2)

/-- `"?[\w\d]+"?`: all three pieces greedy. -/
def matchId (s : List Char) : Option (List Char × List Char) :=
  match eatChar '"' s with
  | some r => (matchIdBody r).bind fun pw => some ('"' :: pw.1, pw.2)
  | none => matchIdBody s

/-- `(?:\s+[-0-9.]+)?\)`: greedily try the optional rotation field, fall
back to a bare closing parenthesis. -/
def matchTailParen (s : List Char) : Option (List Char) :=
  match (takeWhile1 isSpaceChar s).bind fun p1 =>
      (takeWhile1 isNumChar p1.2).bind fun p2 => eatChar ')' p2.2 with
  | some r => some r
  | none => eatChar ')' s

/-- `\(at\s+([-0-9.]+)\s+([-0-9.]+)(?:\s+[-0-9.]+)?\)`, returning the two
captures and the rest of the input. -/
def matchAt (s : List Char) : Option (List Char × List Char × List Char) :=
  (eatLit ['(', 'a', 't'] s).bind fun s1 =>
  (takeWhile1 isSpaceChar s1).bind fun p1 =>
  (takeWhile1 isNumChar p1.2).bind fun px =>
  (takeWhile1 isSpaceChar px.2).bind fun p2 =>
  (takeWhile1 isNumChar p2.2).bind fun py =>
  (matchTailParen py.2).bind fun r => some (px.1, py.1, r)

/-- `\(size\s+([-0-9.]+)\s+([-0-9.]+)\)`. -/
def matchSize (s : List Char) : Option (List Char × List Char × List Char) :=
  (eatLit ['(', 's', 'i', 'z', 'e'] s).bind fun s1 =>
  (takeWhile1 isSpaceChar s1).bind fun p1 =>
  (takeWhile1 isNumChar p1.2).bind fun pw =>
  (takeWhile1 isSpaceChar pw.2).bind fun p2 =>
  (takeWhile1 isNumChar p2.2).bind fun ph =>
  (eatChar ')' ph.2).bind fun r => some (pw.1, ph.1, r)

/-- The second lazy gap: least position at which a size record matches. -/
def searchSize : List Char → Option (List Char × List Char × List Char)
  | [] => none
  | c :: t =>
    match matchSize (c :: t) with
    | some res => some res
    | none => searchSize t

/-- The first lazy gap with its backtracking point: least position at
which an at record matches *and* a size record can be found after it. -/
def searchAtThenSize :
    List Char → Option (List Char × List Char × List Char × List Char × List Char)
  | [] => none
  | c :: t =>
    match matchAt (c :: t) with
    | some (xs, ys, r) =>
      (match searchSize r with
       | some (ws, hs, r2) => some (xs, ys, ws, hs, r2)
       | none => searchAtThenSize t)
    | none => searchAtThenSize t

/-- A parsed pad record (the objects pushed onto `pads` at lines 160-166
of `VisualPreview.tsx`).  Fields are JavaScript numbers: `none` is NaN. -/
structure RawPad where
  num : String
  x : Option ℚ
  y : Option ℚ
  width : Option ℚ
  height : Option ℚ
deriving DecidableEq

/-- A parsed outline line record (lines 170-174). -/
structure RawLine where
  x1 : Option ℚ
  y1 : Option ℚ
  x2 : Option ℚ
  y2 : Option ℚ
deriving DecidableEq

/-- `match[1].replace(/"/g, '')`. -/
def stripQuotes (l : List Char) : List Char :=
  l.filter (fun c => c != '"')

/-- The five capture groups of one pad match (`match[1]`–`match[5]`). -/
structure PadCapture where
  id : List Char
  xs : List Char
  ys : List Char
  ws : List Char
  hs : List Char
deriving DecidableEq

/-- The object construction at lines 160-166: quote-stripped identifier
and `parseFloat` of each numeric capture. -/
def PadCapture.toRawPad (c : PadCapture) : RawPad :=
  { num := String.mk (stripQuotes c.id),
    x := jsParseFloat c.xs, y := jsParseFloat c.ys,
    width := jsParseFloat c.ws, height := jsParseFloat c.hs }

/-- The four capture groups of one line match. -/
structure LineCapture where
  x1s : List Char
  y1s : List Char
  x2s : List Char
  y2s : List Char
deriving DecidableEq

/-- The object construction at line 173. -/
def LineCapture.toRawLine (c : LineCapture) : RawLine :=
  { x1 := jsParseFloat c.x1s, y1 := jsParseFloat c.y1s,
    x2 := jsParseFloat c.x2s, y2 := jsParseFloat c.y2s }

/-- One attempt of the pad regex anchored at the start of `s`; on success
returns the captures and the rest of the input after the match. -/
def matchPadAt (s : List Char) : Option (PadCapture × List Char) :=
  (eatLit ['(', 'p', 'a', 'd'] s).bind fun s1 =>
  (takeWhile1 isSpaceChar s1).bind fun p1 =>
  (matchId p1.2).bind fun pid =>
  (searchAtThenSize pid.2).bind fun q =>
  some ({ id := pid.1, xs := q.1, ys := q.2.1, ws := q.2.2.1, hs := q.2.2.2.1 },
    q.2.2.2.2)

/-- `\s+lit\s+([-0-9.]+)\s+([-0-9.]+)\)`: one coordinate sub-record of
the line regex, preceded by mandatory whitespace. -/
def matchCoordSec (lit : List Char) (s : List Char) :
    Option (List Char × List Char × List Char) :=
  (takeWhile1 isSpaceChar s).bind fun p1 =>
  (eatLit lit p1.2).bind fun s2 =>
  (takeWhile1 isSpaceChar s2).bind fun p2 =>
  (takeWhile1 isNumChar p2.2).bind fun pa =>
  (takeWhile1 isSpaceChar pa.2).bind fun p3 =>
  (takeWhile1 isNumChar p3.2).bind fun pb =>
  (eatChar ')' pb.2).bind fun r => some (pa.1, pb.1, r)

/-- One attempt of the line regex anchored at the start of `s`. -/
def matchLineAt (s : List Char) : Option (LineCapture × List Char) :=
  (eatLit ['(', 'f', 'p', '_', 'l', 'i', 'n', 'e'] s).bind fun s1 =>
  (matchCoordSec ['(', 's', 't', 'a', 'r', 't'] s1).bind fun a =>
  (matchCoordSec ['(', 'e', 'n', 'd'] a.2.2).bind fun b =>
  some ({ x1s := a.1, y1s := a.2.1, x2s := b.1, y2s := b.2.1 }, b.2.2)

/-- The `exec` loop for the pad regex: find the leftmost match, emit its
captures, continue after the end of the match.  `fuel` bounds the
recursion; every step consumes at least one character, so `s.length` is
always enough. -/
def scanPadsF : ℕ → List Char → List PadCapture
  | 0, _ => []
  | Nat.succ f, s =>
    match matchPadAt s with
    | some (p, r) => p :: scanPadsF f r
    | none =>
      match s with
      | [] => []
      | _ :: t => scanPadsF f t

def scanPads (s : List Char) : List PadCapture := scanPadsF s.length s

/-- The pad extraction of `Footprint2D` (lines 156-167): scan all matches
and build a record from each match's captures. -/
def parsePads (s : List Char) : List RawPad :=
  (scanPads s).map PadCapture.toRawPad

/-- The `exec` loop for the line regex. -/
def scanLinesF : ℕ → List Char → List LineCapture
  | 0, _ => []
  | Nat.succ f, s =>
    match matchLineAt s with
    | some (p, r) => p :: scanLinesF f r
    | none =>
      match s with
      | [] => []
      | _ :: t => scanLinesF f t

def scanLines (s : List Char) : List LineCapture := scanLinesF s.length s

/-- The line extraction of `Footprint2D` (lines 170-174). -/
def parseLines (s : List Char) : List RawLine :=
  (scanLines s).map LineCapture.toRawLine

/-! ## Coordinate mapper and 2D footprint renderer (`Footprint2D`)

These components operate on geometry whose numeric fields are ordinary
finite numbers, embedded as `ℚ`.  A `RawPad` whose fields all parsed
(`some`) corresponds to a `Pad` via `RawPad.toPad?`. -/

structure Pad where
  num : String
  x : ℚ
  y : ℚ
  width : ℚ
  height : ℚ
deriving DecidableEq

structure Seg where
  x1 : ℚ
  y1 : ℚ
  x2 : ℚ
  y2 : ℚ
deriving DecidableEq

def RawPad.toPad? (p : RawPad) : Option Pad :=
  match p.x, p.y, p.width, p.height with
  | some x, some y, some w, some h => some ⟨p.num, x, y, w, h⟩
  | _, _, _, _ => none

/-- `transformRef` contents (line 148/199): screen origin and px/mm scale. -/
structure ViewTransform where
  centerX : ℚ
  centerY : ℚ
  scale : ℚ
deriving DecidableEq

structure Bounds where
  minX : ℚ
  maxX : ℚ
  minY : ℚ
  maxY : ℚ
deriving DecidableEq

/-- The list spread into `Math.min`/`Math.max` for the x axis
(lines 178-183). -/
def coordsX (pads : List Pad) (segs : List Seg) : List ℚ :=
  pads.map (fun p => p.x - p.width / 2) ++ pads.map (fun p => p.x + p.width / 2)
    ++ segs.map (fun l => l.x1) ++ segs.map (fun l => l.x2)

/-- The list spread into `Math.min`/`Math.max` for the y axis
(lines 184-189). -/
def coordsY (pads : List Pad) (segs : List Seg) : List ℚ :=
  pads.map (fun p => p.y - p.height / 2) ++ pads.map (fun p => p.y + p.height / 2)
    ++ segs.map (fun l => l.y1) ++ segs.map (fun l => l.y2)

/-- `Math.min` over a list (only applied to nonempty lists in the source;
the `[]` value is arbitrary). -/
def qmin : List ℚ → ℚ
  | [] => 0
  | x :: xs => xs.foldl min x

def qmax : List ℚ → ℚ
  | [] => 0
  | x :: xs => xs.foldl max x

/-- Lines 176-194: default box `[-5,5]²`, otherwise min/max of the
coordinate lists expanded by `1.5` on each side. -/
def computeBounds (pads : List Pad) (segs : List Seg) : Bounds :=
  if pads.isEmpty && segs.isEmpty then ⟨-5, 5, -5, 5⟩
  else
    ⟨qmin (coordsX pads segs) - 1.5, qmax (coordsX pads segs) + 1.5,
     qmin (coordsY pads segs) - 1.5, qmax (coordsY pads segs) + 1.5⟩

/-- Line 196: `Math.min((w-40)/(maxX-minX), (h-40)/(maxY-minY))`. -/
def fitScale (w h : ℚ) (pads : List Pad) (segs : List Seg) : ℚ :=
  min ((w - 40) / ((computeBounds pads segs).maxX - (computeBounds pads segs).minX))
    ((h - 40) / ((computeBounds pads segs).maxY - (computeBounds pads segs).minY))

/-- Lines 196-199. -/
def computeTransform (w h : ℚ) (pads : List Pad) (segs : List Seg) : ViewTransform :=
  { centerX := w / 2
      - ((computeBounds pads segs).minX + (computeBounds pads segs).maxX) / 2
        * fitScale w h pads segs,
    centerY := h / 2
      - ((computeBounds pads segs).minY + (computeBounds pads segs).maxY) / 2
        * fitScale w h pads segs,
    scale := fitScale w h pads segs }

/-- The `Footprint2D` canvas is `400 × 400` (line 246). -/
def fpCanvasW : ℚ := 400

def fpCanvasH : ℚ := 400

def footprintTransform (pads : List Pad) (segs : List Seg) : ViewTransform :=
  computeTransform fpCanvasW fpCanvasH pads segs

/-- The screen-space rectangle a pad is drawn at (lines 217-220; the same
rectangle is recomputed by the click handler at lines 254-257). -/
structure DrawnRect where
  num : String
  px : ℚ
  py : ℚ
  pw : ℚ
  ph : ℚ
deriving DecidableEq

def drawnRect (t : ViewTransform) (p : Pad) : DrawnRect :=
  { num := p.num,
    px := t.centerX + p.x * t.scale - p.width * t.scale / 2,
    py := t.centerY + p.y * t.scale - p.height * t.scale / 2,
    pw := p.width * t.scale,
    ph := p.height * t.scale }

/-- Lines 214-238: every element of `pads` is drawn; there is no
filtering of any kind before the draw loop. -/
def drawnPadRects (t : ViewTransform) (pads : List Pad) : List DrawnRect :=
  pads.map (drawnRect t)

/-- Point-in-rectangle test of the click handler (line 258). -/
def padHitB (t : ViewTransform) (x y : ℚ) (p : Pad) : Bool :=
  let r := drawnRect t p
  decide (r.px ≤ x ∧ x ≤ r.px + r.pw ∧ r.py ≤ y ∧ y ≤ r.py + r.ph)

/-- `padsRef.current.find(...)` (lines 253-259): first containing pad. -/
def footprintHitTest (t : ViewTransform) (pads : List Pad) (x y : ℚ) : Option String :=
  (pads.find? (padHitB t x y)).map (fun p => p.num)

/-- Effect of a click on the `Footprint2D` canvas on the shared selection
(lines 246-261): `onPinSelect` fires only when a pad is hit. -/
def footprintClickUpdate (t : ViewTransform) (pads : List Pad) (x y : ℚ)
    (sel : Option String) : Option String :=
  match footprintHitTest t pads x y with
  | some n => some n
  | none => sel

/-! ## Symbol layout engine and schematic renderer (`SchematicSymbol2D`) -/

/-- `electrical_type` of `PinInfo` (`src/types.ts`). -/
inductive ElecType where
  | input
  | output
  | bidirectional
  | power_in
  | power_out
  | passive
  | not_connected
deriving DecidableEq

structure PinInfo where
  pin_number : String
  pin_name : String
  electrical_type : ElecType
  description : String
deriving DecidableEq

/-- `leftSideTypes` (lines 25 and 114). -/
def leftSideTypes : List ElecType :=
  [ElecType.input, ElecType.bidirectional, ElecType.passive, ElecType.power_in]

def isLeftPin (p : PinInfo) : Bool := leftSideTypes.contains p.electrical_type

/-- Side partition with rebalancing (lines 26-35, repeated verbatim at
lines 114-118): initial filter split, then if one side is empty and the
other nonempty, `splice(0, Math.ceil(n/2))` moves the first half of the
nonempty side onto the empty side. -/
def layoutSides (pins : List PinInfo) : List PinInfo × List PinInfo :=
  let l := pins.filter isLeftPin
  let r := pins.filter (fun p => !isLeftPin p)
  if l.isEmpty && !r.isEmpty then
    (r.take ((r.length + 1) / 2), r.drop ((r.length + 1) / 2))
  else if r.isEmpty && !l.isEmpty then
    (l.drop ((l.length + 1) / 2), l.take ((l.length + 1) / 2))
  else
    (l, r)

/-- Fixed layout constants (lines 38-39, 68, 42). -/
def pinSpacing : ℚ := 35

def schBoxW : ℚ := 160

def pinLen : ℚ := 30

def schCanvasW : ℚ := 400

/-- Line 40: `boxHeight = Math.max(100, (maxSidePins + 1) * pinSpacing)`. -/
def schBoxHeight (pins : List PinInfo) : ℚ :=
  max 100 (((max (layoutSides pins).1.length (layoutSides pins).2.length : ℕ) + 1 : ℕ) * pinSpacing)

/-- Line 43: `canvas.height = boxHeight + 100`. -/
def schCanvasH (pins : List PinInfo) : ℚ := schBoxHeight pins + 100

def schCenterY (pins : List PinInfo) : ℚ := schCanvasH pins / 2

/-- Line 66 / line 129: vertical position of slot `i` among `n` slots. -/
def slotY (centerY : ℚ) (n i : ℕ) : ℚ :=
  centerY - ((n : ℚ) - 1) * pinSpacing / 2 + (i : ℚ) * pinSpacing

/-- A pin with its side, slot index and side size after layout. -/
structure SchSlot where
  isLeft : Bool
  idx : ℕ
  sideCount : ℕ
  pin : PinInfo
deriving DecidableEq

/-- The iteration order `[...leftPins, ...rightPins]` with each pin's side
and index (lines 125-128). -/
def schSlots (pins : List PinInfo) : List SchSlot :=
  ((layoutSides pins).1.enum.map
      (fun e => SchSlot.mk true e.1 (layoutSides pins).1.length e.2))
    ++ ((layoutSides pins).2.enum.map
      (fun e => SchSlot.mk false e.1 (layoutSides pins).2.length e.2))

/-- x coordinate of the drawn end of the lead: box edge ∓ `pinLen`
(lines 67, 74; also the selection marker circle, line 89). -/
def leadOuterX (isLeft : Bool) : ℚ :=
  if isLeft then schCanvasW / 2 - schBoxW / 2 - pinLen
  else schCanvasW / 2 + schBoxW / 2 + pinLen

/-- x coordinate of the centre of the click target (line 130): box edge
∓ 15, which is *not* `leadOuterX`. -/
def hitCenterX (isLeft : Bool) : ℚ :=
  if isLeft then schCanvasW / 2 - schBoxW / 2 - 15
  else schCanvasW / 2 + schBoxW / 2 + 15

def slotHitY (pins : List PinInfo) (s : SchSlot) : ℚ :=
  slotY (schCenterY pins) s.sideCount s.idx

/-- Squared-distance form of `Math.sqrt(dx²+dy²) < 20` (line 131-132);
for real numbers the two tests are equivalent. -/
def slotHitB (pins : List PinInfo) (x y : ℚ) (s : SchSlot) : Bool :=
  decide ((x - hitCenterX s.isLeft) ^ 2 + (y - slotHitY pins s) ^ 2 < 400)

/-- The forEach at lines 125-133: every in-range pin fires `onPinSelect`,
so the last in-range pin in iteration order determines the selection. -/
def schHitTest (pins : List PinInfo) (x y : ℚ) : Option String :=
  (schSlots pins).foldl
    (fun acc s => if slotHitB pins x y s then some s.pin.pin_number else acc) none

/-- Effect of a click on the schematic canvas on the shared selection:
when no pin is in range nothing fires and the selection is unchanged. -/
def schClickUpdate (pins : List PinInfo) (x y : ℚ)
    (sel : Option String) : Option String :=
  match schHitTest pins x y with
  | some n => some n
  | none => sel

/-! ## 3D renderer (`ComponentModel`) -/

/-- `FootprintData` restricted to the fields the preview core reads. -/
structure FootprintDataM where
  pinCount : Option ℕ
  pitchNominal : Option ℚ
  bodyWidthNominal : Option ℚ
  bodyLengthNominal : Option ℚ
  heightNominal : Option ℚ
  pins : Option (List PinInfo)
  kicadMod : List Char
  componentName : Option String
deriving DecidableEq

/-- JavaScript `v || d` on an optional number: `0` is falsy. -/
def jsOr (v : Option ℚ) (d : ℚ) : ℚ :=
  match v with
  | some q => if q = 0 then d else q
  | none => d

/-- Line 284: `data.pinCount || 8` (`0` and `undefined` both fall back). -/
def pinCountOr8 (pc : Option ℕ) : ℕ :=
  match pc with
  | none => 8
  | some n => if n = 0 then 8 else n

structure Lead3D where
  num : String
  side : ℚ
  offset : ℚ
deriving DecidableEq

/-- The lead groups generated by `ComponentModel` (lines 282-313): lead
`i` gets pin number `(i+1).toString()`; the bundle's `pins` list is never
consulted. -/
def componentLeads (d : FootprintDataM) : List Lead3D :=
  let pinCount := pinCountOr8 d.pinCount
  let perSide := (pinCount + 1) / 2
  let pitch := jsOr d.pitchNominal (127 / 100) * (1 / 2)
  (List.range pinCount).map (fun i =>
    let isLeftSide := decide (i < perSide)
    let index : ℚ := if isLeftSide then (i : ℚ) else (pinCount : ℚ) - 1 - (i : ℚ)
    { num := toString (i + 1),
      side := if isLeftSide then -1 else 1,
      offset := (index - ((perSide : ℚ) - 1) / 2) * pitch })

/-! ## Selection coordinator (`VisualPreview` and `App`)

`selectedPinNumber` is a React `useState` hook inside `VisualPreview`
(line 357).  Its lifecycle follows React's semantics, embedded as a step
relation: hook state persists across re-renders of a mounted component
instance and is re-initialised to the declared initial value (`null`)
only when the component is mounted afresh.  `App` renders
`{result ? ... <VisualPreview data={result}/> ... : placeholder}`
(App.tsx lines 169, 209, 303), so `VisualPreview` is mounted exactly when
`result` is non-null; `handleProcess` replaces `result` with new data
without clearing it first (App.tsx line 55), while `handleFileChange`
sets `result` to null (App.tsx line 34).  The dismiss button calls
`setSelectedPinNumber(null)` (line 404). -/

structure PreviewUIState where
  result : Option FootprintDataM
  sel : Option String
deriving DecidableEq

inductive UIEvent where
  | rerender
  | loadBundle (d : FootprintDataM)
  | fileChange
  | selectPin (n : String)
  | dismiss

def uiStep (st : PreviewUIState) : UIEvent → PreviewUIState
  | UIEvent.rerender => st
  | UIEvent.loadBundle d =>
    match st.result with
    | some _ => { result := some d, sel := st.sel }
    | none => { result := some d, sel := none }
  | UIEvent.fileChange => { result := none, sel := none }
  | UIEvent.selectPin n => { st with sel := some n }
  | UIEvent.dismiss => { st with sel := none }

/-! ## Canonical records and interleavings

To state what the scanner does on a string made of well-formed records
separated by arbitrary other text, we describe such strings
syntactically: a list of items, each a pad record of the canonical shape
`(pad ID (at X Y [R]) (size W H))`, a line record of the canonical shape
`(fp_line (start X1 Y1) (end X2 Y2))`, or a garbage segment. -/

structure PadRecordSrc where
  quoted : Bool
  id : List Char
  xs : List Char
  ys : List Char
  rot : Option (List Char)
  ws : List Char
  hs : List Char
deriving DecidableEq

def PadRecordSrc.idSec (r : PadRecordSrc) : List Char :=
  if r.quoted then '"' :: (r.id ++ ['"']) else r.id

def PadRecordSrc.rotSec (r : PadRecordSrc) : List Char :=
  match r.rot with
  | some rs => ' ' :: rs
  | none => []

def PadRecordSrc.render (r : PadRecordSrc) : List Char :=
  ['(', 'p', 'a', 'd', ' '] ++ r.idSec
    ++ [' ', '(', 'a', 't', ' '] ++ r.xs ++ ' ' :: r.ys ++ r.rotSec
    ++ [')', ' ', '(', 's', 'i', 'z', 'e', ' '] ++ r.ws ++ ' ' :: r.hs ++ [')', ')']

/-- The captures one match on a canonical pad record yields: the
identifier section verbatim, the four numeric fields, rotation ignored. -/
def PadRecordSrc.capture (r : PadRecordSrc) : PadCapture :=
  { id := r.idSec, xs := r.xs, ys := r.ys, ws := r.ws, hs := r.hs }

/-- The `RawPad` the scanner should produce for a canonical pad record:
identifier with quotes stripped, fields put through `parseFloat`, the
rotation ignored. -/
def PadRecordSrc.value (r : PadRecordSrc) : RawPad :=
  { num := String.mk r.id,
    x := jsParseFloat r.xs, y := jsParseFloat r.ys,
    width := jsParseFloat r.ws, height := jsParseFloat r.hs }

structure LineRecordSrc where
  x1s : List Char
  y1s : List Char
  x2s : List Char
  y2s : List Char
deriving DecidableEq

def LineRecordSrc.render (r : LineRecordSrc) : List Char :=
  ['(', 'f', 'p', '_', 'l', 'i', 'n', 'e', ' ', '(', 's', 't', 'a', 'r', 't', ' ']
    ++ r.x1s ++ ' ' :: r.y1s
    ++ [')', ' ', '(', 'e', 'n', 'd', ' '] ++ r.x2s ++ ' ' :: r.y2s ++ [')', ')']

def LineRecordSrc.capture (r : LineRecordSrc) : LineCapture :=
  { x1s := r.x1s, y1s := r.y1s, x2s := r.x2s, y2s := r.y2s }

def LineRecordSrc.value (r : LineRecordSrc) : RawLine :=
  { x1 := jsParseFloat r.x1s, y1 := jsParseFloat r.y1s,
    x2 := jsParseFloat r.x2s, y2 := jsParseFloat r.y2s }

def wordStrB (s : List Char) : Bool := !s.isEmpty && s.all isWordChar

def numStrB (s : List Char) : Bool := !s.isEmpty && s.all isNumChar

def PadRecordSrc.wfB (r : PadRecordSrc) : Bool :=
  wordStrB r.id && numStrB r.xs && numStrB r.ys
    && (match r.rot with | some rs => numStrB rs | none => true)
    && numStrB r.ws && numStrB r.hs

def LineRecordSrc.wfB (r : LineRecordSrc) : Bool :=
  numStrB r.x1s && numStrB r.y1s && numStrB r.x2s && numStrB r.y2s

/-- Garbage that contains no `'('` cannot open any record anchor. -/
def parenFreeB (g : List Char) : Bool := g.all (fun c => c != '(')

inductive FpItem where
  | garbage (g : List Char)
  | pad (r : PadRecordSrc)
  | line (r : LineRecordSrc)
deriving DecidableEq

def FpItem.render : FpItem → List Char
  | FpItem.garbage g => g
  | FpItem.pad r => r.render
  | FpItem.line r => r.render

def FpItem.wfB : FpItem → Bool
  | FpItem.garbage g => parenFreeB g
  | FpItem.pad r => r.wfB
  | FpItem.line r => r.wfB

def itemsRender (items : List FpItem) : List Char :=
  (items.map FpItem.render).flatten

def padsSpec (items : List FpItem) : List RawPad :=
  items.filterMap (fun it =>
    match it with
    | FpItem.pad r => some r.value
    | _ => none)

def linesSpec (items : List FpItem) : List RawLine :=
  items.filterMap (fun it =>
    match it with
    | FpItem.line r => some r.value
    | _ => none)

def padCapturesSpec (items : List FpItem) : List PadCapture :=
  items.filterMap (fun it =>
    match it with
    | FpItem.pad r => some r.capture
    | _ => none)

def lineCapturesSpec (items : List FpItem) : List LineCapture :=
  items.filterMap (fun it =>
    match it with
    | FpItem.line r => some r.capture
    | _ => none)

def isPadItem : FpItem → Bool
  | FpItem.pad _ => true
  | _ => false

def isLineItem : FpItem → Bool
  | FpItem.line _ => true
  | _ => false

/-- `headNeB c s`: `s` is nonempty and does not start with `c`. -/
def headNeB (c : Char) : List Char → Bool
  | [] => false
  | d :: _ => d != c

/-- `anchorFree c s`: no position of `s` can start a match of the literal
`'(' :: c :: …`, even allowing the match to run past the end of `s`
(every `'('` in `s` is followed, inside `s`, by a character other than
`c`). -/
def anchorFree (c : Char) : List Char → Bool
  | [] => true
  | d :: rest => (if d = '(' then headNeB c rest else true) && anchorFree c rest

/-! ## Concrete instances used by counterexamples and witnesses -/

def padRecC8 : PadRecordSrc :=
  { quoted := true, id := ['1'], xs := ['1'], ys := ['2'], rot := none,
    ws := ['3'], hs := ['4'] }

/-- One well-formed pad record preceded by garbage that contains a
`(pad` anchor. -/
def cex8Items : List FpItem :=
  [FpItem.garbage ("(pad junk ".toList), FpItem.pad padRecC8]

def cexC4 : List Char :=
  ("(pad \"1\" (at . 0) (size 1 1)) (pad \"2\" (at 3 4) (size 5 6))").toList

def cexC3 : List Char := ("(pad \"1\" (at 0 0) (size -1 2))").toList

def padC3 : Pad := { num := "1", x := 0, y := 0, width := -1, height := 2 }

def padC6 : Pad := { num := "1", x := 0, y := 0, width := 1, height := 1 }

def padC1 : Pad := { num := "1", x := 0, y := 0, width := 1, height := 2 }

def pinIn1 : PinInfo :=
  { pin_number := "1", pin_name := "IN", electrical_type := ElecType.input,
    description := "" }

def pinOut2 : PinInfo :=
  { pin_number := "2", pin_name := "OUT", electrical_type := ElecType.output,
    description := "" }

def pinsC2 : List PinInfo := [pinIn1, pinOut2]

def slotC2 : SchSlot := { isLeft := true, idx := 0, sideCount := 1, pin := pinIn1 }

def outPin (n : String) : PinInfo :=
  { pin_number := n, pin_name := "O", electrical_type := ElecType.output,
    description := "" }

def outPins4 : List PinInfo := [outPin "1", outPin "2", outPin "3", outPin "4"]

def bundleA : FootprintDataM :=
  { pinCount := none, pitchNominal := none, bodyWidthNominal := none,
    bodyLengthNominal := none, heightNominal := none, pins := none,
    kicadMod := [], componentName := none }

def bundleB : FootprintDataM :=
  { bundleA with pinCount := some 4 }

/-- A canonical pad record whose x field `.` fails float parsing. -/
def padRecC4 : PadRecordSrc :=
  { quoted := true, id := ['1'], xs := ['.'], ys := ['0'], rot := none,
    ws := ['1'], hs := ['1'] }

def witC4Items : List FpItem :=
  [FpItem.pad padRecC4, FpItem.garbage (" oo ".toList), FpItem.pad padRecC8]

def witItems : List FpItem :=
  [FpItem.garbage ("junk ".toList),
   FpItem.pad { quoted := true, id := ['1'], xs := ['1'], ys := ['2'],
                rot := some ['9', '0'], ws := ['3'], hs := ['4'] },
   FpItem.garbage (" x) ".toList),
   FpItem.line { x1s := ['0'], y1s := ['1'], x2s := ['2'], y2s := ['3'] },
   FpItem.garbage (" tail".toList)]

/-! # Theorems -/

/-! ## Generic helpers -/

theorem foldl_hit_keep {α : Type} (f : α → Bool) (g : α → String) (v : String) :
    ∀ l : List α, (∀ a ∈ l, f a = true → g a = v) →
      l.foldl (fun acc a => if f a then some (g a) else acc) (some v) = some v := by
  intro l
  induction l with
  | nil => intro _; rfl
  | cons b t ih =>
    intro hall
    by_cases hb : f b = true
    · simpa [List.foldl_cons, hb, hall b (List.mem_cons_self b t) hb] using
        ih fun a ha hfa => hall a (List.mem_cons_of_mem b ha) hfa
    · simpa [List.foldl_cons, hb] using
        ih fun a ha hfa => hall a (List.mem_cons_of_mem b ha) hfa

theorem foldl_hit_eq {α : Type} (f : α → Bool) (g : α → String) (s : α)
    (hf : f s = true) :
    ∀ (l : List α) (acc : Option String), s ∈ l →
      (∀ a ∈ l, f a = true → g a = g s) →
      l.foldl (fun acc a => if f a then some (g a) else acc) acc = some (g s) := by
  intro l
  induction l with
  | nil => intro acc hs _; cases hs
  | cons b t ih =>
    intro acc hs hu
    rcases List.mem_cons.mp hs with hsb | hst
    · subst hsb
      simpa [List.foldl_cons, hf] using
        foldl_hit_keep f g (g s) t fun a ha hfa => hu a (List.mem_cons_of_mem s ha) hfa
    · by_cases hb : f b = true
      · simpa [List.foldl_cons, hb, hu b (List.mem_cons_self b t) hb] using
          ih (some (g s)) hst fun a ha hfa => hu a (List.mem_cons_of_mem b ha) hfa
      · simpa [List.foldl_cons, hb] using
          ih acc hst fun a ha hfa => hu a (List.mem_cons_of_mem b ha) hfa

/-! ## Character-class facts -/

theorem spaceChar_enum {c : Char} (h : isSpaceChar c = true) :
    c = ' ' ∨ c = '\t' ∨ c = '\n' ∨ c = '\r' ∨ c = Char.ofNat 11 ∨ c = Char.ofNat 12 := by
  simp only [isSpaceChar, Bool.or_eq_true, decide_eq_true_eq] at h
  tauto

theorem numChar_not_space {c : Char} (h : isNumChar c = true) : isSpaceChar c = false := by
  cases hs : isSpaceChar c with
  | false => rfl
  | true =>
    exfalso
    rcases spaceChar_enum hs with h1 | h1 | h1 | h1 | h1 | h1 <;> subst h1 <;>
      exact absurd h (by decide)

theorem numChar_ne_lparen {c : Char} (h : isNumChar c = true) : c ≠ '(' := by
  intro hc
  subst hc
  exact absurd h (by decide)

theorem wordChar_not_space {c : Char} (h : isWordChar c = true) : isSpaceChar c = false := by
  cases hs : isSpaceChar c with
  | false => rfl
  | true =>
    exfalso
    rcases spaceChar_enum hs with h1 | h1 | h1 | h1 | h1 | h1 <;> subst h1 <;>
      exact absurd h (by decide)

theorem wordChar_ne_quote {c : Char} (h : isWordChar c = true) : c ≠ '"' := by
  intro hc
  subst hc
  exact absurd h (by decide)

theorem wordChar_ne_lparen {c : Char} (h : isWordChar c = true) : c ≠ '(' := by
  intro hc
  subst hc
  exact absurd h (by decide)

/-! ## Scanner building blocks: lengths and evaluation on split inputs -/

theorem eatChar_len {c : Char} {s r : List Char} (h : eatChar c s = some r) :
    r.length < s.length := by
  cases s with
  | nil => simp [eatChar] at h
  | cons d t =>
    by_cases hd : d = c
    · simp only [eatChar, hd, if_pos rfl] at h
      cases h
      simp
    · simp [eatChar, hd] at h

theorem eatChar_cons_self (c : Char) (r : List Char) : eatChar c (c :: r) = some r := by
  simp [eatChar]

theorem eatChar_cons_ne {c d : Char} (r : List Char) (h : d ≠ c) :
    eatChar c (d :: r) = none := by
  simp [eatChar, h]

theorem eatLit_len : ∀ (p : List Char) {s r : List Char},
    eatLit p s = some r → r.length ≤ s.length := by
  intro p
  induction p with
  | nil =>
    intro s r h
    rw [eatLit] at h
    cases h
    exact le_refl _
  | cons c p ih =>
    intro s r h
    rw [eatLit] at h
    cases he : eatChar c s with
    | none => rw [he] at h; cases h
    | some t =>
      rw [he] at h
      exact (ih h).trans (eatChar_len he).le

theorem eatLit_len_lt (c : Char) (p : List Char) {s r : List Char}
    (h : eatLit (c :: p) s = some r) : r.length < s.length := by
  rw [eatLit] at h
  cases he : eatChar c s with
  | none => rw [he] at h; cases h
  | some t =>
    rw [he] at h
    exact lt_of_le_of_lt (eatLit_len p h) (eatChar_len he)

theorem eatLit_append (p r : List Char) : eatLit p (p ++ r) = some r := by
  induction p with
  | nil => rfl
  | cons c p ih => simp [eatLit, eatChar_cons_self, ih]

theorem eatLit_ne_head (c : Char) (p : List Char) {d : Char} {t : List Char}
    (h : d ≠ c) : eatLit (c :: p) (d :: t) = none := by
  simp [eatLit, eatChar_cons_ne t h]

theorem eatLit_nil_input (c : Char) (p : List Char) : eatLit (c :: p) [] = none := by
  simp [eatLit, eatChar]

theorem eatLit_second (c c2 : Char) (p : List Char) {d : Char} {t : List Char}
    (h : d ≠ c2) : eatLit (c :: c2 :: p) (c :: d :: t) = none := by
  simp [eatLit, eatChar_cons_self, eatChar_cons_ne t h]

theorem eatLit_one (c c2 : Char) (p : List Char) : eatLit (c :: c2 :: p) [c] = none := by
  simp [eatLit, eatChar_cons_self, eatChar]

theorem takeWhile1_len {f : Char → Bool} {s : List Char} {p : List Char × List Char}
    (h : takeWhile1 f s = some p) : p.2.length < s.length ∧ p.1 ≠ [] := by
  rw [takeWhile1] at h
  by_cases he : (s.takeWhile f).isEmpty
  · simp [he] at h
  · simp only [he, if_neg, Bool.false_eq_true, not_false_iff, if_false] at h
    cases h
    constructor
    · show (s.drop (s.takeWhile f).length).length < s.length
      rw [List.length_drop]
      have h1 : (s.takeWhile f).length ≤ s.length := (List.takeWhile_prefix f).length_le
      have h2 : 0 < (s.takeWhile f).length := by
        cases hw : s.takeWhile f with
        | nil => rw [hw] at he; simp [List.isEmpty] at he
        | cons a l => simp
      exact Nat.sub_lt (lt_of_lt_of_le h2 h1) h2
    · show s.takeWhile f ≠ []
      intro hnil
      rw [hnil] at he
      simp [List.isEmpty] at he

theorem takeWhile_append_all (f : Char → Bool) :
    ∀ (a b : List Char), (∀ c ∈ a, f c = true) →
      (∀ c, b.head? = some c → f c = false) → (a ++ b).takeWhile f = a := by
  intro a
  induction a with
  | nil =>
    intro b _ hb
    cases b with
    | nil => rfl
    | cons c t =>
      simp [List.takeWhile_cons, hb c rfl]
  | cons x a ih =>
    intro b hall hb
    simp [List.takeWhile_cons, hall x (List.mem_cons_self x a),
      ih b (fun c hc => hall c (List.mem_cons_of_mem x hc)) hb]

theorem takeWhile1_append (f : Char → Bool) (a b : List Char) (hne : a ≠ [])
    (hall : ∀ c ∈ a, f c = true) (hb : ∀ c, b.head? = some c → f c = false) :
    takeWhile1 f (a ++ b) = some (a, b) := by
  rw [takeWhile1, takeWhile_append_all f a b hall hb]
  have : a.isEmpty = false := by
    cases a with
    | nil => exact absurd rfl hne
    | cons x t => rfl
  simp only [this, Bool.false_eq_true, if_false, List.drop_left]

theorem takeWhile1_space_single (z : List Char)
    (hz : ∀ c, z.head? = some c → isSpaceChar c = false) :
    takeWhile1 isSpaceChar (' ' :: z) = some ([' '], z) :=
  takeWhile1_append isSpaceChar [' '] z (by simp)
    (fun c hc => by simp at hc; subst hc; decide) hz

theorem takeWhile1_none (f : Char → Bool) {s : List Char}
    (h : ∀ c, s.head? = some c → f c = false) : takeWhile1 f s = none := by
  cases s with
  | nil => rfl
  | cons c t => simp [takeWhile1, List.takeWhile_cons, h c rfl]

theorem numStrB_parts {s : List Char} (h : numStrB s = true) :
    s ≠ [] ∧ ∀ c ∈ s, isNumChar c = true := by
  rw [numStrB, Bool.and_eq_true] at h
  constructor
  · intro hn
    rw [hn] at h
    simp at h
  · exact fun c hc => List.all_eq_true.mp h.2 c hc

theorem wordStrB_parts {s : List Char} (h : wordStrB s = true) :
    s ≠ [] ∧ ∀ c ∈ s, isWordChar c = true := by
  rw [wordStrB, Bool.and_eq_true] at h
  constructor
  · intro hn
    rw [hn] at h
    simp at h
  · exact fun c hc => List.all_eq_true.mp h.2 c hc

theorem head_not_space_of_num {s : List Char} (z : List Char) (h : numStrB s = true) :
    ∀ c, (s ++ z).head? = some c → isSpaceChar c = false := by
  obtain ⟨hne, hall⟩ := numStrB_parts h
  cases s with
  | nil => exact absurd rfl hne
  | cons x t =>
    intro c hc
    simp only [List.cons_append, List.head?_cons, Option.some.injEq] at hc
    subst hc
    exact numChar_not_space (hall x (List.mem_cons_self x t))

theorem head_not_space_of_word {s : List Char} (z : List Char) (h : wordStrB s = true) :
    ∀ c, (s ++ z).head? = some c → isSpaceChar c = false := by
  obtain ⟨hne, hall⟩ := wordStrB_parts h
  cases s with
  | nil => exact absurd rfl hne
  | cons x t =>
    intro c hc
    simp only [List.cons_append, List.head?_cons, Option.some.injEq] at hc
    subst hc
    exact wordChar_not_space (hall x (List.mem_cons_self x t))

theorem takeWhile1_num_field {s : List Char} (z : List Char) (h : numStrB s = true)
    (hz : ∀ c, z.head? = some c → isNumChar c = false) :
    takeWhile1 isNumChar (s ++ z) = some (s, z) :=
  takeWhile1_append isNumChar s z (numStrB_parts h).1 (numStrB_parts h).2 hz

/-! ## Evaluation of the matchers on canonical record text -/

theorem matchTailParen_norot (rest : List Char) :
    matchTailParen (')' :: rest) = some rest := by
  rw [matchTailParen,
    takeWhile1_none isSpaceChar (fun c hc => by simp at hc; subst hc; decide)]
  simp [eatChar_cons_self]

theorem matchTailParen_rot (rs rest : List Char) (h : numStrB rs = true) :
    matchTailParen (' ' :: (rs ++ ')' :: rest)) = some rest := by
  rw [matchTailParen,
    takeWhile1_space_single _ (head_not_space_of_num _ h),
    Option.some_bind,
    takeWhile1_num_field _ h (fun c hc => by simp at hc; subst hc; decide)]
  simp [eatChar_cons_self]

theorem matchAt_render (xs ys tail rest : List Char)
    (hxs : numStrB xs = true) (hys : numStrB ys = true)
    (htail : matchTailParen tail = some rest)
    (hhead : ∀ c, tail.head? = some c → isNumChar c = false) :
    matchAt ('(' :: 'a' :: 't' :: ' ' :: (xs ++ ' ' :: (ys ++ tail)))
      = some (xs, ys, rest) := by
  have h0 : eatLit ['(', 'a', 't'] ('(' :: 'a' :: 't' :: ' ' :: (xs ++ ' ' :: (ys ++ tail)))
      = some (' ' :: (xs ++ ' ' :: (ys ++ tail))) := by
    simp [eatLit, eatChar_cons_self]
  rw [matchAt, h0, Option.some_bind,
    takeWhile1_space_single _ (head_not_space_of_num _ hxs), Option.some_bind]
  rw [show ([' '], xs ++ ' ' :: (ys ++ tail)).2 = xs ++ ' ' :: (ys ++ tail) from rfl,
    takeWhile1_num_field _ hxs (fun c hc => by simp at hc; subst hc; decide),
    Option.some_bind]
  rw [show ((xs, ' ' :: (ys ++ tail)) : List Char × List Char).2 = ' ' :: (ys ++ tail)
      from rfl,
    takeWhile1_space_single _ (head_not_space_of_num _ hys), Option.some_bind]
  rw [show ([' '], ys ++ tail).2 = ys ++ tail from rfl,
    takeWhile1_num_field _ hys hhead, Option.some_bind]
  rw [show ((ys, tail) : List Char × List Char).2 = tail from rfl, htail, Option.some_bind]

theorem matchSize_render (ws hs rest : List Char)
    (hws : numStrB ws = true) (hhs : numStrB hs = true) :
    matchSize ('(' :: 's' :: 'i' :: 'z' :: 'e' :: ' ' :: (ws ++ ' ' :: (hs ++ ')' :: rest)))
      = some (ws, hs, rest) := by
  have h0 : eatLit ['(', 's', 'i', 'z', 'e']
      ('(' :: 's' :: 'i' :: 'z' :: 'e' :: ' ' :: (ws ++ ' ' :: (hs ++ ')' :: rest)))
      = some (' ' :: (ws ++ ' ' :: (hs ++ ')' :: rest))) := by
    simp [eatLit, eatChar_cons_self]
  rw [matchSize, h0, Option.some_bind,
    takeWhile1_space_single _ (head_not_space_of_num _ hws), Option.some_bind]
  rw [show ([' '], ws ++ ' ' :: (hs ++ ')' :: rest)).2 = ws ++ ' ' :: (hs ++ ')' :: rest)
      from rfl,
    takeWhile1_num_field _ hws (fun c hc => by simp at hc; subst hc; decide),
    Option.some_bind]
  rw [show ((ws, ' ' :: (hs ++ ')' :: rest)) : List Char × List Char).2
        = ' ' :: (hs ++ ')' :: rest) from rfl,
    takeWhile1_space_single _ (head_not_space_of_num _ hhs), Option.some_bind]
  rw [show ([' '], hs ++ ')' :: rest).2 = hs ++ ')' :: rest from rfl,
    takeWhile1_num_field _ hhs (fun c hc => by simp at hc; subst hc; decide),
    Option.some_bind]
  rw [show ((hs, ')' :: rest) : List Char × List Char).2 = ')' :: rest from rfl,
    eatChar_cons_self, Option.some_bind]

theorem matchId_unquoted (w z : List Char) (hw : wordStrB w = true) :
    matchId (w ++ ' ' :: z) = some (w, ' ' :: z) := by
  obtain ⟨hne, hall⟩ := wordStrB_parts hw
  have hq : eatChar '"' (w ++ ' ' :: z) = none := by
    cases w with
    | nil => exact absurd rfl hne
    | cons x t =>
      exact eatChar_cons_ne _ (wordChar_ne_quote (hall x (List.mem_cons_self x t)))
  have h1 : takeWhile1 isWordChar (w ++ ' ' :: z) = some (w, ' ' :: z) :=
    takeWhile1_append isWordChar w (' ' :: z) hne hall
      (fun c hc => by simp at hc; subst hc; decide)
  simp only [matchId, hq, matchIdBody, h1, Option.some_bind,
    eatChar_cons_ne z (show (' ' : Char) ≠ '"' by decide)]

theorem matchId_quoted (w z : List Char) (hw : wordStrB w = true) :
    matchId ('"' :: (w ++ '"' :: ' ' :: z)) = some ('"' :: (w ++ ['"']), ' ' :: z) := by
  obtain ⟨hne, hall⟩ := wordStrB_parts hw
  have h1 : takeWhile1 isWordChar (w ++ '"' :: ' ' :: z) = some (w, '"' :: ' ' :: z) :=
    takeWhile1_append isWordChar w ('"' :: ' ' :: z) hne hall
      (fun c hc => by simp at hc; subst hc; decide)
  simp only [matchId, eatChar_cons_self, matchIdBody, h1, Option.some_bind]

theorem searchSize_cons_ne (c : Char) (t : List Char) (h : c ≠ '(') :
    searchSize (c :: t) = searchSize t := by
  have hm : matchSize (c :: t) = none := by
    rw [matchSize, eatLit_ne_head _ _ h]
    rfl
  simp [searchSize, hm]

theorem searchSize_cons_some {c : Char} {t : List Char}
    {res : List Char × List Char × List Char} (h : matchSize (c :: t) = some res) :
    searchSize (c :: t) = some res := by
  simp [searchSize, h]

theorem searchAtThenSize_cons_ne (c : Char) (t : List Char) (h : c ≠ '(') :
    searchAtThenSize (c :: t) = searchAtThenSize t := by
  have hm : matchAt (c :: t) = none := by
    rw [matchAt, eatLit_ne_head _ _ h]
    rfl
  simp [searchAtThenSize, hm]

theorem searchAtThenSize_cons_some {c : Char} {t xs ys r ws hs r2 : List Char}
    (hat : matchAt (c :: t) = some (xs, ys, r))
    (hss : searchSize r = some (ws, hs, r2)) :
    searchAtThenSize (c :: t) = some (xs, ys, ws, hs, r2) := by
  simp [searchAtThenSize, hat, hss]

/-! ## Consumed-length facts, giving the scan fuel bound -/

theorem matchTailParen_len {s r : List Char} (h : matchTailParen s = some r) :
    r.length < s.length := by
  rw [matchTailParen] at h
  cases hin : (takeWhile1 isSpaceChar s).bind
      (fun p1 => (takeWhile1 isNumChar p1.2).bind fun p2 => eatChar ')' p2.2) with
  | none =>
    rw [hin] at h
    exact eatChar_len h
  | some r2 =>
    rw [hin] at h
    cases h
    rw [Option.bind_eq_some] at hin
    obtain ⟨p1, hp1, hin⟩ := hin
    rw [Option.bind_eq_some] at hin
    obtain ⟨p2, hp2, he⟩ := hin
    exact lt_trans (lt_trans (eatChar_len he) (takeWhile1_len hp2).1) (takeWhile1_len hp1).1

theorem matchAt_len {s : List Char} {res : List Char × List Char × List Char}
    (h : matchAt s = some res) : res.2.2.length < s.length := by
  rw [matchAt] at h
  rw [Option.bind_eq_some] at h
  obtain ⟨s1, h0, h⟩ := h
  rw [Option.bind_eq_some] at h
  obtain ⟨p1, h1, h⟩ := h
  rw [Option.bind_eq_some] at h
  obtain ⟨px, h2, h⟩ := h
  rw [Option.bind_eq_some] at h
  obtain ⟨p2, h3, h⟩ := h
  rw [Option.bind_eq_some] at h
  obtain ⟨py, h4, h⟩ := h
  rw [Option.bind_eq_some] at h
  obtain ⟨r, h5, h⟩ := h
  cases h
  exact lt_trans (lt_trans (lt_trans (lt_trans (lt_trans (matchTailParen_len h5)
    (takeWhile1_len h4).1) (takeWhile1_len h3).1) (takeWhile1_len h2).1)
    (takeWhile1_len h1).1) (eatLit_len_lt '(' ['a', 't'] h0)

theorem matchSize_len {s : List Char} {res : List Char × List Char × List Char}
    (h : matchSize s = some res) : res.2.2.length < s.length := by
  rw [matchSize] at h
  rw [Option.bind_eq_some] at h
  obtain ⟨s1, h0, h⟩ := h
  rw [Option.bind_eq_some] at h
  obtain ⟨p1, h1, h⟩ := h
  rw [Option.bind_eq_some] at h
  obtain ⟨pw, h2, h⟩ := h
  rw [Option.bind_eq_some] at h
  obtain ⟨p2, h3, h⟩ := h
  rw [Option.bind_eq_some] at h
  obtain ⟨ph, h4, h⟩ := h
  rw [Option.bind_eq_some] at h
  obtain ⟨r, h5, h⟩ := h
  cases h
  exact lt_trans (lt_trans (lt_trans (lt_trans (lt_trans (eatChar_len h5)
    (takeWhile1_len h4).1) (takeWhile1_len h3).1) (takeWhile1_len h2).1)
    (takeWhile1_len h1).1) (eatLit_len_lt '(' ['s', 'i', 'z', 'e'] h0)

theorem matchIdBody_len {s : List Char} {p : List Char × List Char}
    (h : matchIdBody s = some p) : p.2.length < s.length := by
  rw [matchIdBody] at h
  rw [Option.bind_eq_some] at h
  obtain ⟨pw, hw, h⟩ := h
  cases he : eatChar '"' pw.2 with
  | some r3 =>
    rw [he] at h
    cases h
    exact lt_trans (eatChar_len he) (takeWhile1_len hw).1
  | none =>
    rw [he] at h
    cases h
    exact (takeWhile1_len hw).1

theorem matchId_len {s : List Char} {p : List Char × List Char}
    (h : matchId s = some p) : p.2.length < s.length := by
  rw [matchId] at h
  cases he : eatChar '"' s with
  | some r =>
    rw [he] at h
    rw [Option.bind_eq_some] at h
    obtain ⟨pw, hb, heq⟩ := h
    cases heq
    show pw.2.length < s.length
    exact lt_trans (matchIdBody_len hb) (eatChar_len he)
  | none =>
    rw [he] at h
    exact matchIdBody_len h

theorem searchSize_len : ∀ {s : List Char} {res : List Char × List Char × List Char},
    searchSize s = some res → res.2.2.length < s.length := by
  intro s
  induction s with
  | nil => intro res h; cases h
  | cons c t ih =>
    intro res h
    rw [searchSize] at h
    cases hm : matchSize (c :: t) with
    | some res2 =>
      rw [hm] at h
      cases h
      exact matchSize_len hm
    | none =>
      rw [hm] at h
      exact lt_trans (ih h) (by simp)

theorem searchAtThenSize_len :
    ∀ {s : List Char} {res : List Char × List Char × List Char × List Char × List Char},
    searchAtThenSize s = some res → res.2.2.2.2.length < s.length := by
  intro s
  induction s with
  | nil => intro res h; cases h
  | cons c t ih =>
    intro res h
    rw [searchAtThenSize] at h
    cases hat : matchAt (c :: t) with
    | some q =>
      obtain ⟨xs, ys, r⟩ := q
      simp only [hat] at h
      cases hss : searchSize r with
      | some q2 =>
        obtain ⟨ws2, hs2, r2⟩ := q2
        simp only [hss] at h
        cases h
        show r2.length < (c :: t).length
        have hA : r2.length < r.length := searchSize_len hss
        have hB : r.length < (c :: t).length := matchAt_len hat
        exact lt_trans hA hB
      | none =>
        simp only [hss] at h
        exact lt_trans (ih h) (by simp)
    | none =>
      simp only [hat] at h
      exact lt_trans (ih h) (by simp)

theorem matchPadAt_len {s : List Char} {p : PadCapture × List Char}
    (h : matchPadAt s = some p) : p.2.length < s.length := by
  rw [matchPadAt] at h
  rw [Option.bind_eq_some] at h
  obtain ⟨s1, h0, h⟩ := h
  rw [Option.bind_eq_some] at h
  obtain ⟨p1, h1, h⟩ := h
  rw [Option.bind_eq_some] at h
  obtain ⟨pid, h2, h⟩ := h
  rw [Option.bind_eq_some] at h
  obtain ⟨q, h3, h⟩ := h
  cases h
  exact lt_trans (lt_trans (lt_trans (searchAtThenSize_len h3) (matchId_len h2))
    (takeWhile1_len h1).1) (eatLit_len_lt '(' ['p', 'a', 'd'] h0)

theorem matchCoordSec_len {lit s : List Char} {res : List Char × List Char × List Char}
    (h : matchCoordSec lit s = some res) : res.2.2.length < s.length := by
  rw [matchCoordSec] at h
  rw [Option.bind_eq_some] at h
  obtain ⟨p1, h1, h⟩ := h
  rw [Option.bind_eq_some] at h
  obtain ⟨s2, h2, h⟩ := h
  rw [Option.bind_eq_some] at h
  obtain ⟨p2, h3, h⟩ := h
  rw [Option.bind_eq_some] at h
  obtain ⟨pa, h4, h⟩ := h
  rw [Option.bind_eq_some] at h
  obtain ⟨p3, h5, h⟩ := h
  rw [Option.bind_eq_some] at h
  obtain ⟨pb, h6, h⟩ := h
  rw [Option.bind_eq_some] at h
  obtain ⟨r, h7, h⟩ := h
  cases h
  calc r.length < pb.2.length := eatChar_len h7
    _ < p3.2.length := (takeWhile1_len h6).1
    _ < pa.2.length := (takeWhile1_len h5).1
    _ < p2.2.length := (takeWhile1_len h4).1
    _ ≤ s2.length := le_of_lt (takeWhile1_len h3).1
    _ ≤ p1.2.length := eatLit_len _ h2
    _ < s.length := (takeWhile1_len h1).1

theorem matchLineAt_len {s : List Char} {p : LineCapture × List Char}
    (h : matchLineAt s = some p) : p.2.length < s.length := by
  rw [matchLineAt] at h
  rw [Option.bind_eq_some] at h
  obtain ⟨s1, h0, h⟩ := h
  rw [Option.bind_eq_some] at h
  obtain ⟨a, h1, h⟩ := h
  rw [Option.bind_eq_some] at h
  obtain ⟨b, h2, h⟩ := h
  cases h
  exact lt_trans (lt_trans (matchCoordSec_len h2) (matchCoordSec_len h1))
    (eatLit_len_lt '(' ['f', 'p', '_', 'l', 'i', 'n', 'e'] h0)

/-! ## The scan loops: fuel, skipping safe text, and consuming records -/

theorem matchPadAt_none_head {c : Char} {t : List Char} (h : c ≠ '(') :
    matchPadAt (c :: t) = none := by
  rw [matchPadAt, eatLit_ne_head _ _ h]
  rfl

theorem matchPadAt_none_second {d : Char} {t : List Char} (h : d ≠ 'p') :
    matchPadAt ('(' :: d :: t) = none := by
  rw [matchPadAt, eatLit_second _ _ _ h]
  rfl

theorem matchPadAt_none_single : matchPadAt ['('] = none := by
  rw [matchPadAt, eatLit_one]
  rfl

theorem matchLineAt_none_head {c : Char} {t : List Char} (h : c ≠ '(') :
    matchLineAt (c :: t) = none := by
  rw [matchLineAt, eatLit_ne_head _ _ h]
  rfl

theorem matchLineAt_none_second {d : Char} {t : List Char} (h : d ≠ 'f') :
    matchLineAt ('(' :: d :: t) = none := by
  rw [matchLineAt, eatLit_second _ _ _ h]
  rfl

theorem matchLineAt_none_single : matchLineAt ['('] = none := by
  rw [matchLineAt, eatLit_one]
  rfl

theorem scanPadsF_nil (f : ℕ) : scanPadsF f [] = [] := by
  cases f with
  | zero => rfl
  | succ g =>
    have : matchPadAt [] = none := by
      rw [matchPadAt, eatLit_nil_input]
      rfl
    simp [scanPadsF, this]

theorem scanLinesF_nil (f : ℕ) : scanLinesF f [] = [] := by
  cases f with
  | zero => rfl
  | succ g =>
    have : matchLineAt [] = none := by
      rw [matchLineAt, eatLit_nil_input]
      rfl
    simp [scanLinesF, this]

theorem scanPadsF_congr : ∀ (n : ℕ) (s : List Char) (f1 f2 : ℕ), s.length = n →
    n ≤ f1 → n ≤ f2 → scanPadsF f1 s = scanPadsF f2 s := by
  intro n
  induction n using Nat.strong_induction_on with
  | _ n ih =>
    intro s f1 f2 hn h1 h2
    cases s with
    | nil => rw [scanPadsF_nil, scanPadsF_nil]
    | cons c t =>
      subst hn
      simp only [List.length_cons] at h1 h2
      cases f1 with
      | zero => omega
      | succ g1 =>
        cases f2 with
        | zero => omega
        | succ g2 =>
          simp only [scanPadsF]
          cases hm : matchPadAt (c :: t) with
          | some p =>
            obtain ⟨cap, r⟩ := p
            have hl := matchPadAt_len hm
            simp only [List.length_cons] at hl
            show cap :: scanPadsF g1 r = cap :: scanPadsF g2 r
            congr 1
            exact ih r.length (by simp only [List.length_cons]; omega) r g1 g2 rfl
              (by omega) (by omega)
          | none =>
            exact ih t.length (by simp only [List.length_cons]; omega) t g1 g2 rfl
              (by omega) (by omega)

theorem scanLinesF_congr : ∀ (n : ℕ) (s : List Char) (f1 f2 : ℕ), s.length = n →
    n ≤ f1 → n ≤ f2 → scanLinesF f1 s = scanLinesF f2 s := by
  intro n
  induction n using Nat.strong_induction_on with
  | _ n ih =>
    intro s f1 f2 hn h1 h2
    cases s with
    | nil => rw [scanLinesF_nil, scanLinesF_nil]
    | cons c t =>
      subst hn
      simp only [List.length_cons] at h1 h2
      cases f1 with
      | zero => omega
      | succ g1 =>
        cases f2 with
        | zero => omega
        | succ g2 =>
          simp only [scanLinesF]
          cases hm : matchLineAt (c :: t) with
          | some p =>
            obtain ⟨cap, r⟩ := p
            have hl := matchLineAt_len hm
            simp only [List.length_cons] at hl
            show cap :: scanLinesF g1 r = cap :: scanLinesF g2 r
            congr 1
            exact ih r.length (by simp only [List.length_cons]; omega) r g1 g2 rfl
              (by omega) (by omega)
          | none =>
            exact ih t.length (by simp only [List.length_cons]; omega) t g1 g2 rfl
              (by omega) (by omega)

theorem headNeB_parts {c : Char} {l : List Char} (h : headNeB c l = true) :
    ∃ d t, l = d :: t ∧ d ≠ c := by
  cases l with
  | nil => simp [headNeB] at h
  | cons d t =>
    refine ⟨d, t, rfl, ?_⟩
    simpa [headNeB] using h

theorem anchorFree_cons {c d : Char} {t : List Char} (h : anchorFree c (d :: t) = true) :
    (d = '(' → headNeB c t = true) ∧ anchorFree c t = true := by
  rw [anchorFree, Bool.and_eq_true] at h
  obtain ⟨h1, h2⟩ := h
  refine ⟨?_, h2⟩
  intro hd
  rwa [if_pos hd] at h1

theorem scanPadsF_skip : ∀ (g : List Char), anchorFree 'p' g = true →
    ∀ (rest : List Char) (f : ℕ), (g ++ rest).length ≤ f →
    scanPadsF f (g ++ rest) = scanPadsF rest.length rest := by
  intro g
  induction g with
  | nil =>
    intro _ rest f hf
    simp only [List.nil_append] at hf ⊢
    exact scanPadsF_congr rest.length rest f rest.length rfl hf (le_refl _)
  | cons d t ih =>
    intro hg rest f hf
    obtain ⟨h1, h2⟩ := anchorFree_cons hg
    have hm : matchPadAt ((d :: t) ++ rest) = none := by
      by_cases hd : d = '('
      · obtain ⟨e, t', het, hne⟩ := headNeB_parts (h1 hd)
        subst hd
        rw [List.cons_append, het, List.cons_append]
        exact matchPadAt_none_second hne
      · rw [List.cons_append]
        exact matchPadAt_none_head hd
    simp only [List.cons_append, List.length_cons] at hf
    cases f with
    | zero => omega
    | succ g1 =>
      have hm2 : matchPadAt (d :: (t ++ rest)) = none := by
        rw [← List.cons_append]
        exact hm
      rw [List.cons_append]
      simp only [scanPadsF, hm2]
      exact ih h2 rest g1 (by simpa using Nat.le_of_succ_le_succ hf)

theorem scanLinesF_skip : ∀ (g : List Char), anchorFree 'f' g = true →
    ∀ (rest : List Char) (f : ℕ), (g ++ rest).length ≤ f →
    scanLinesF f (g ++ rest) = scanLinesF rest.length rest := by
  intro g
  induction g with
  | nil =>
    intro _ rest f hf
    simp only [List.nil_append] at hf ⊢
    exact scanLinesF_congr rest.length rest f rest.length rfl hf (le_refl _)
  | cons d t ih =>
    intro hg rest f hf
    obtain ⟨h1, h2⟩ := anchorFree_cons hg
    have hm : matchLineAt ((d :: t) ++ rest) = none := by
      by_cases hd : d = '('
      · obtain ⟨e, t', het, hne⟩ := headNeB_parts (h1 hd)
        subst hd
        rw [List.cons_append, het, List.cons_append]
        exact matchLineAt_none_second hne
      · rw [List.cons_append]
        exact matchLineAt_none_head hd
    simp only [List.cons_append, List.length_cons] at hf
    cases f with
    | zero => omega
    | succ g1 =>
      have hm2 : matchLineAt (d :: (t ++ rest)) = none := by
        rw [← List.cons_append]
        exact hm
      rw [List.cons_append]
      simp only [scanLinesF, hm2]
      exact ih h2 rest g1 (by simpa using Nat.le_of_succ_le_succ hf)

/-! ## Matching one canonical record -/

theorem padWfB_parts {r : PadRecordSrc} (h : r.wfB = true) :
    wordStrB r.id = true ∧ numStrB r.xs = true ∧ numStrB r.ys = true
    ∧ (∀ rs, r.rot = some rs → numStrB rs = true)
    ∧ numStrB r.ws = true ∧ numStrB r.hs = true := by
  rw [PadRecordSrc.wfB] at h
  simp only [Bool.and_eq_true] at h
  obtain ⟨⟨⟨⟨⟨h1, h2⟩, h3⟩, h4⟩, h5⟩, h6⟩ := h
  refine ⟨h1, h2, h3, ?_, h5, h6⟩
  intro rs hrs
  rw [hrs] at h4
  exact h4

theorem lineWfB_parts {r : LineRecordSrc} (h : r.wfB = true) :
    numStrB r.x1s = true ∧ numStrB r.y1s = true
    ∧ numStrB r.x2s = true ∧ numStrB r.y2s = true := by
  rw [LineRecordSrc.wfB] at h
  simp only [Bool.and_eq_true] at h
  obtain ⟨⟨⟨h1, h2⟩, h3⟩, h4⟩ := h
  exact ⟨h1, h2, h3, h4⟩

theorem eatLit_pad (z : List Char) :
    eatLit ['(', 'p', 'a', 'd'] ('(' :: 'p' :: 'a' :: 'd' :: z) = some z := by
  simp [eatLit, eatChar_cons_self]

theorem eatLit_fpline (z : List Char) :
    eatLit ['(', 'f', 'p', '_', 'l', 'i', 'n', 'e']
      ('(' :: 'f' :: 'p' :: '_' :: 'l' :: 'i' :: 'n' :: 'e' :: z) = some z := by
  simp [eatLit, eatChar_cons_self]

theorem matchTailParen_rotSec (r : PadRecordSrc) (z : List Char)
    (hrot : ∀ rs, r.rot = some rs → numStrB rs = true) :
    matchTailParen (r.rotSec ++ ')' :: z) = some z := by
  rw [PadRecordSrc.rotSec]
  cases hr : r.rot with
  | none => exact matchTailParen_norot z
  | some rs =>
    rw [show ((' ' :: rs) ++ ')' :: z) = ' ' :: (rs ++ ')' :: z) from by simp]
    exact matchTailParen_rot rs z (hrot rs hr)

theorem rotSec_head_not_num (r : PadRecordSrc) (z : List Char) :
    ∀ c, (r.rotSec ++ ')' :: z).head? = some c → isNumChar c = false := by
  rw [PadRecordSrc.rotSec]
  cases r.rot <;> intro c hc <;> simp at hc <;> rw [← hc] <;> decide

theorem idSec_head_not_space (r : PadRecordSrc) (z : List Char)
    (hid : wordStrB r.id = true) :
    ∀ c, (r.idSec ++ z).head? = some c → isSpaceChar c = false := by
  rw [PadRecordSrc.idSec]
  cases hq : r.quoted with
  | true =>
    intro c hc
    simp at hc
    rw [← hc]
    decide
  | false =>
    simp only [Bool.false_eq_true, if_false]
    exact head_not_space_of_word z hid

theorem matchId_idSec (r : PadRecordSrc) (z : List Char) (hid : wordStrB r.id = true) :
    matchId (r.idSec ++ ' ' :: z) = some (r.idSec, ' ' :: z) := by
  rw [PadRecordSrc.idSec]
  cases hq : r.quoted with
  | false =>
    simp only [Bool.false_eq_true, if_false]
    exact matchId_unquoted r.id z hid
  | true =>
    rw [if_pos rfl,
      show ('"' :: (r.id ++ ['"'])) ++ ' ' :: z = '"' :: (r.id ++ '"' :: ' ' :: z) from by
        simp]
    exact matchId_quoted r.id z hid

theorem matchPadAt_render (r : PadRecordSrc) (rest : List Char) (hwf : r.wfB = true) :
    matchPadAt (r.render ++ rest) = some (r.capture, ')' :: rest) := by
  obtain ⟨hid, hxs, hys, hrot, hws, hhs⟩ := padWfB_parts hwf
  have hnorm : r.render ++ rest
      = '(' :: 'p' :: 'a' :: 'd' :: ' ' ::
        (r.idSec ++ ' ' ::
          ('(' :: 'a' :: 't' :: ' ' ::
            (r.xs ++ ' ' ::
              (r.ys ++
                (r.rotSec ++ ')' ::
                  (' ' ::
                    ('(' :: 's' :: 'i' :: 'z' :: 'e' :: ' ' ::
                      (r.ws ++ ' ' :: (r.hs ++ ')' :: (')' :: rest)))))))))) := by
    simp [PadRecordSrc.render]
  have hat : matchAt
      ('(' :: 'a' :: 't' :: ' ' ::
        (r.xs ++ ' ' ::
          (r.ys ++
            (r.rotSec ++ ')' ::
              (' ' ::
                ('(' :: 's' :: 'i' :: 'z' :: 'e' :: ' ' ::
                  (r.ws ++ ' ' :: (r.hs ++ ')' :: (')' :: rest)))))))))
      = some (r.xs, r.ys,
          ' ' :: ('(' :: 's' :: 'i' :: 'z' :: 'e' :: ' ' ::
            (r.ws ++ ' ' :: (r.hs ++ ')' :: (')' :: rest))))) :=
    matchAt_render r.xs r.ys _ _ hxs hys
      (matchTailParen_rotSec r _ hrot) (rotSec_head_not_num r _)
  have hss : searchSize
      (' ' :: ('(' :: 's' :: 'i' :: 'z' :: 'e' :: ' ' ::
        (r.ws ++ ' ' :: (r.hs ++ ')' :: (')' :: rest)))))
      = some (r.ws, r.hs, ')' :: rest) := by
    rw [searchSize_cons_ne ' ' _ (by decide)]
    exact searchSize_cons_some (matchSize_render r.ws r.hs (')' :: rest) hws hhs)
  have hsearch : searchAtThenSize
      (' ' ::
        ('(' :: 'a' :: 't' :: ' ' ::
          (r.xs ++ ' ' ::
            (r.ys ++
              (r.rotSec ++ ')' ::
                (' ' ::
                  ('(' :: 's' :: 'i' :: 'z' :: 'e' :: ' ' ::
                    (r.ws ++ ' ' :: (r.hs ++ ')' :: (')' :: rest))))))))))
      = some (r.xs, r.ys, r.ws, r.hs, ')' :: rest) := by
    rw [searchAtThenSize_cons_ne ' ' _ (by decide)]
    exact searchAtThenSize_cons_some hat hss
  rw [hnorm, matchPadAt, eatLit_pad]
  simp only [Option.some_bind]
  rw [takeWhile1_space_single _ (idSec_head_not_space r _ hid)]
  simp only [Option.some_bind]
  rw [matchId_idSec r _ hid]
  simp only [Option.some_bind]
  rw [hsearch]
  simp only [Option.some_bind]
  rfl

theorem matchCoordSec_render (lit a b z : List Char) (hlit : lit.head? = some '(')
    (ha : numStrB a = true) (hb : numStrB b = true) :
    matchCoordSec lit (' ' :: (lit ++ ' ' :: (a ++ ' ' :: (b ++ ')' :: z))))
      = some (a, b, z) := by
  have hh : ∀ c, (lit ++ ' ' :: (a ++ ' ' :: (b ++ ')' :: z))).head? = some c →
      isSpaceChar c = false := by
    cases lit with
    | nil => simp at hlit
    | cons d t =>
      simp only [List.head?_cons, Option.some.injEq] at hlit
      intro c hc
      simp only [List.cons_append, List.head?_cons, Option.some.injEq] at hc
      rw [← hc, hlit]
      decide
  rw [matchCoordSec, takeWhile1_space_single _ hh]
  simp only [Option.some_bind]
  rw [eatLit_append]
  simp only [Option.some_bind]
  rw [takeWhile1_space_single _ (head_not_space_of_num _ ha)]
  simp only [Option.some_bind]
  rw [takeWhile1_num_field _ ha (fun c hc => by simp at hc; rw [← hc]; decide)]
  simp only [Option.some_bind]
  rw [takeWhile1_space_single _ (head_not_space_of_num _ hb)]
  simp only [Option.some_bind]
  rw [takeWhile1_num_field _ hb (fun c hc => by simp at hc; rw [← hc]; decide)]
  simp only [Option.some_bind]
  rw [eatChar_cons_self]
  simp only [Option.some_bind]

theorem matchLineAt_render (lr : LineRecordSrc) (rest : List Char)
    (hwf : lr.wfB = true) :
    matchLineAt (lr.render ++ rest) = some (lr.capture, ')' :: rest) := by
  obtain ⟨h1, h2, h3, h4⟩ := lineWfB_parts hwf
  have hnorm : lr.render ++ rest
      = '(' :: 'f' :: 'p' :: '_' :: 'l' :: 'i' :: 'n' :: 'e' ::
        (' ' :: (['(', 's', 't', 'a', 'r', 't'] ++ ' ' ::
          (lr.x1s ++ ' ' :: (lr.y1s ++ ')' ::
            (' ' :: (['(', 'e', 'n', 'd'] ++ ' ' ::
              (lr.x2s ++ ' ' :: (lr.y2s ++ ')' :: (')' :: rest))))))))) := by
    simp [LineRecordSrc.render]
  rw [hnorm, matchLineAt, eatLit_fpline]
  simp only [Option.some_bind]
  rw [show (lr.x1s ++ ' ' :: (lr.y1s ++ ')' ::
        (' ' :: (['(', 'e', 'n', 'd'] ++ ' ' ::
          (lr.x2s ++ ' ' :: (lr.y2s ++ ')' :: (')' :: rest)))))))
      = (lr.x1s ++ ' ' :: (lr.y1s ++ ')' ::
        (' ' :: (['(', 'e', 'n', 'd'] ++ ' ' ::
          (lr.x2s ++ ' ' :: (lr.y2s ++ ')' :: (')' :: rest))))))) from rfl]
  rw [matchCoordSec_render ['(', 's', 't', 'a', 'r', 't'] lr.x1s lr.y1s _ rfl h1 h2]
  simp only [Option.some_bind]
  rw [matchCoordSec_render ['(', 'e', 'n', 'd'] lr.x2s lr.y2s _ rfl h3 h4]
  simp only [Option.some_bind]
  rfl

/-! ## Record text contains no foreign anchors -/

theorem parenFreeB_anchorFree (c : Char) : ∀ {g : List Char},
    parenFreeB g = true → anchorFree c g = true := by
  intro g
  induction g with
  | nil => intro _; rfl
  | cons d t ih =>
    intro h
    simp only [parenFreeB, List.all_cons, Bool.and_eq_true] at h
    rw [anchorFree, Bool.and_eq_true]
    constructor
    · have hd : d ≠ '(' := by simpa using h.1
      rw [if_neg hd]
    · exact ih (by rw [parenFreeB]; exact h.2)

theorem anchorFree_append (c : Char) : ∀ {a b : List Char},
    anchorFree c a = true → anchorFree c b = true → anchorFree c (a ++ b) = true := by
  intro a
  induction a with
  | nil => intro b _ hb; exact hb
  | cons d t ih =>
    intro b ha hb
    obtain ⟨h1, h2⟩ := anchorFree_cons ha
    rw [List.cons_append, anchorFree, Bool.and_eq_true]
    refine ⟨?_, ih h2 hb⟩
    by_cases hd : d = '('
    · rw [if_pos hd]
      obtain ⟨e, t2, het, hne⟩ := headNeB_parts (h1 hd)
      rw [het, List.cons_append]
      simpa [headNeB] using hne
    · rw [if_neg hd]

theorem numStrB_parenFree {s : List Char} (h : numStrB s = true) :
    parenFreeB s = true := by
  rw [parenFreeB, List.all_eq_true]
  intro c hc
  simpa using numChar_ne_lparen ((numStrB_parts h).2 c hc)

theorem wordStrB_parenFree {s : List Char} (h : wordStrB s = true) :
    parenFreeB s = true := by
  rw [parenFreeB, List.all_eq_true]
  intro c hc
  simpa using wordChar_ne_lparen ((wordStrB_parts h).2 c hc)

theorem parenFreeB_cons_of {d : Char} (hd : d ≠ '(') {l : List Char}
    (hl : parenFreeB l = true) : parenFreeB (d :: l) = true := by
  simp only [parenFreeB, List.all_cons, Bool.and_eq_true] at hl ⊢
  exact ⟨by simpa using hd, hl⟩

theorem idSec_parenFree (r : PadRecordSrc) (hid : wordStrB r.id = true) :
    parenFreeB r.idSec = true := by
  rw [PadRecordSrc.idSec]
  have hpf := wordStrB_parenFree hid
  cases hq : r.quoted with
  | false => simpa using hpf
  | true =>
    rw [if_pos rfl]
    exact parenFreeB_cons_of (by decide)
      (by
        rw [parenFreeB, List.all_append, Bool.and_eq_true]
        exact ⟨hpf, by decide⟩)

theorem rotSec_parenFree (r : PadRecordSrc)
    (hrot : ∀ rs, r.rot = some rs → numStrB rs = true) :
    parenFreeB r.rotSec = true := by
  rw [PadRecordSrc.rotSec]
  cases hr : r.rot with
  | none => rfl
  | some rs => exact parenFreeB_cons_of (by decide) (numStrB_parenFree (hrot rs hr))

theorem padRender_anchorFree (r : PadRecordSrc) (c : Char) (hwf : r.wfB = true)
    (hcp : c ≠ 'p') (hca : c ≠ 'a') (hcs : c ≠ 's') :
    anchorFree c r.render = true := by
  obtain ⟨hid, hxs, hys, hrot, hws, hhs⟩ := padWfB_parts hwf
  rw [PadRecordSrc.render]
  simp only [List.append_assoc]
  refine anchorFree_append c ?_ (anchorFree_append c ?_ (anchorFree_append c ?_
    (anchorFree_append c ?_ (anchorFree_append c ?_ (anchorFree_append c ?_
      (anchorFree_append c ?_ (anchorFree_append c ?_ (anchorFree_append c ?_
        ?_))))))))
  · simp [anchorFree, headNeB, bne_iff_ne, Ne.symm hcp]
  · exact parenFreeB_anchorFree c (idSec_parenFree r hid)
  · simp [anchorFree, headNeB, bne_iff_ne, Ne.symm hca]
  · exact parenFreeB_anchorFree c (numStrB_parenFree hxs)
  · exact parenFreeB_anchorFree c (parenFreeB_cons_of (by decide) (numStrB_parenFree hys))
  · exact parenFreeB_anchorFree c (rotSec_parenFree r hrot)
  · simp [anchorFree, headNeB, bne_iff_ne, Ne.symm hcs]
  · exact parenFreeB_anchorFree c (numStrB_parenFree hws)
  · exact parenFreeB_anchorFree c (parenFreeB_cons_of (by decide) (numStrB_parenFree hhs))
  · simp [anchorFree]

theorem lineRender_anchorFree (lr : LineRecordSrc) (c : Char) (hwf : lr.wfB = true)
    (hcf : c ≠ 'f') (hcs : c ≠ 's') (hce : c ≠ 'e') :
    anchorFree c lr.render = true := by
  obtain ⟨h1, h2, h3, h4⟩ := lineWfB_parts hwf
  rw [LineRecordSrc.render]
  simp only [List.append_assoc]
  refine anchorFree_append c ?_ (anchorFree_append c ?_ (anchorFree_append c ?_
    (anchorFree_append c ?_ (anchorFree_append c ?_ (anchorFree_append c ?_
      ?_)))))
  · simp [anchorFree, headNeB, bne_iff_ne, Ne.symm hcf, Ne.symm hcs]
  · exact parenFreeB_anchorFree c (numStrB_parenFree h1)
  · exact parenFreeB_anchorFree c (parenFreeB_cons_of (by decide) (numStrB_parenFree h2))
  · simp [anchorFree, headNeB, bne_iff_ne, Ne.symm hce]
  · exact parenFreeB_anchorFree c (numStrB_parenFree h3)
  · exact parenFreeB_anchorFree c (parenFreeB_cons_of (by decide) (numStrB_parenFree h4))
  · simp [anchorFree]

/-! ## The scan over a whole canonical interleaving -/

theorem itemsRender_cons (it : FpItem) (rest : List FpItem) :
    itemsRender (it :: rest) = it.render ++ itemsRender rest := by
  simp [itemsRender]

theorem scanPads_canonical : ∀ (items : List FpItem), (∀ it ∈ items, it.wfB = true) →
    ∀ f, (itemsRender items).length ≤ f →
    scanPadsF f (itemsRender items) = padCapturesSpec items := by
  intro items
  induction items with
  | nil =>
    intro _ f _
    simp only [itemsRender, List.map_nil, List.flatten_nil]
    rw [scanPadsF_nil]
    rfl
  | cons it rest ih =>
    intro hwf f hf
    have hwit : it.wfB = true := hwf it (List.mem_cons_self it rest)
    have hwrest : ∀ x ∈ rest, x.wfB = true :=
      fun x hx => hwf x (List.mem_cons_of_mem it hx)
    rw [itemsRender_cons] at hf ⊢
    cases it with
    | garbage g =>
      show scanPadsF f (g ++ itemsRender rest) = padCapturesSpec (FpItem.garbage g :: rest)
      rw [scanPadsF_skip g (parenFreeB_anchorFree 'p' hwit) (itemsRender rest) f hf,
        ih hwrest (itemsRender rest).length (le_refl _)]
      simp [padCapturesSpec]
    | line lr =>
      show scanPadsF f (lr.render ++ itemsRender rest)
          = padCapturesSpec (FpItem.line lr :: rest)
      rw [scanPadsF_skip lr.render
          (lineRender_anchorFree lr 'p' hwit (by decide) (by decide) (by decide))
          (itemsRender rest) f hf,
        ih hwrest (itemsRender rest).length (le_refl _)]
      simp [padCapturesSpec]
    | pad pr =>
      show scanPadsF f (pr.render ++ itemsRender rest)
          = padCapturesSpec (FpItem.pad pr :: rest)
      have hm := matchPadAt_render pr (itemsRender rest) hwit
      have hflen : (pr.render ++ itemsRender rest).length ≤ f := hf
      have hpos : 0 < (pr.render ++ itemsRender rest).length := by
        rw [PadRecordSrc.render]
        simp
      cases f with
      | zero => omega
      | succ f2 =>
        simp only [scanPadsF, hm]
        have hlt : (')' :: itemsRender rest).length
            < (pr.render ++ itemsRender rest).length := matchPadAt_len hm
        have hfuel : (')' :: itemsRender rest).length ≤ f2 := by
          simp only [List.length_cons] at hlt ⊢
          omega
        rw [show (')' :: itemsRender rest) = [')'] ++ itemsRender rest from rfl,
          scanPadsF_skip [')'] (by decide) (itemsRender rest) f2 (by simpa using hfuel),
          ih hwrest (itemsRender rest).length (le_refl _)]
        simp [padCapturesSpec]

theorem scanLines_canonical : ∀ (items : List FpItem), (∀ it ∈ items, it.wfB = true) →
    ∀ f, (itemsRender items).length ≤ f →
    scanLinesF f (itemsRender items) = lineCapturesSpec items := by
  intro items
  induction items with
  | nil =>
    intro _ f _
    simp only [itemsRender, List.map_nil, List.flatten_nil]
    rw [scanLinesF_nil]
    rfl
  | cons it rest ih =>
    intro hwf f hf
    have hwit : it.wfB = true := hwf it (List.mem_cons_self it rest)
    have hwrest : ∀ x ∈ rest, x.wfB = true :=
      fun x hx => hwf x (List.mem_cons_of_mem it hx)
    rw [itemsRender_cons] at hf ⊢
    cases it with
    | garbage g =>
      show scanLinesF f (g ++ itemsRender rest)
          = lineCapturesSpec (FpItem.garbage g :: rest)
      rw [scanLinesF_skip g (parenFreeB_anchorFree 'f' hwit) (itemsRender rest) f hf,
        ih hwrest (itemsRender rest).length (le_refl _)]
      simp [lineCapturesSpec]
    | pad pr =>
      show scanLinesF f (pr.render ++ itemsRender rest)
          = lineCapturesSpec (FpItem.pad pr :: rest)
      rw [scanLinesF_skip pr.render
          (padRender_anchorFree pr 'f' hwit (by decide) (by decide) (by decide))
          (itemsRender rest) f hf,
        ih hwrest (itemsRender rest).length (le_refl _)]
      simp [lineCapturesSpec]
    | line lr =>
      show scanLinesF f (lr.render ++ itemsRender rest)
          = lineCapturesSpec (FpItem.line lr :: rest)
      have hm := matchLineAt_render lr (itemsRender rest) hwit
      have hflen : (lr.render ++ itemsRender rest).length ≤ f := hf
      have hpos : 0 < (lr.render ++ itemsRender rest).length := by
        rw [LineRecordSrc.render]
        simp
      cases f with
      | zero => omega
      | succ f2 =>
        simp only [scanLinesF, hm]
        have hlt : (')' :: itemsRender rest).length
            < (lr.render ++ itemsRender rest).length := matchLineAt_len hm
        have hfuel : (')' :: itemsRender rest).length ≤ f2 := by
          simp only [List.length_cons] at hlt ⊢
          omega
        rw [show (')' :: itemsRender rest) = [')'] ++ itemsRender rest from rfl,
          scanLinesF_skip [')'] (by decide) (itemsRender rest) f2 (by simpa using hfuel),
          ih hwrest (itemsRender rest).length (le_refl _)]
        simp [lineCapturesSpec]

/-! ## From captures to records -/

theorem capture_toRawPad (r : PadRecordSrc) (hid : wordStrB r.id = true) :
    PadCapture.toRawPad r.capture = r.value := by
  have hflt : r.id.filter (fun c => c != '"') = r.id :=
    List.filter_eq_self.mpr fun c hc => by
      simpa using wordChar_ne_quote ((wordStrB_parts hid).2 c hc)
  have hstrip : stripQuotes r.idSec = r.id := by
    rw [stripQuotes, PadRecordSrc.idSec]
    cases hq : r.quoted with
    | false => simpa using hflt
    | true =>
      rw [if_pos rfl]
      simp [List.filter_cons, List.filter_append, hflt]
  simp [PadCapture.toRawPad, PadRecordSrc.capture, PadRecordSrc.value, hstrip]

theorem padCapturesSpec_map : ∀ (items : List FpItem), (∀ it ∈ items, it.wfB = true) →
    (padCapturesSpec items).map PadCapture.toRawPad = padsSpec items := by
  intro items
  induction items with
  | nil => intro _; rfl
  | cons it rest ih =>
    intro h
    have hrest := fun x hx => h x (List.mem_cons_of_mem it hx)
    cases it with
    | garbage g =>
      show (padCapturesSpec (FpItem.garbage g :: rest)).map PadCapture.toRawPad
          = padsSpec (FpItem.garbage g :: rest)
      have e1 : padCapturesSpec (FpItem.garbage g :: rest) = padCapturesSpec rest := by
        simp [padCapturesSpec]
      have e2 : padsSpec (FpItem.garbage g :: rest) = padsSpec rest := by
        simp [padsSpec]
      rw [e1, e2]
      exact ih hrest
    | line lr =>
      have e1 : padCapturesSpec (FpItem.line lr :: rest) = padCapturesSpec rest := by
        simp [padCapturesSpec]
      have e2 : padsSpec (FpItem.line lr :: rest) = padsSpec rest := by
        simp [padsSpec]
      rw [e1, e2]
      exact ih hrest
    | pad pr =>
      have hwf : pr.wfB = true := h (FpItem.pad pr) (List.mem_cons_self _ rest)
      have e1 : padCapturesSpec (FpItem.pad pr :: rest)
          = pr.capture :: padCapturesSpec rest := by
        simp [padCapturesSpec]
      have e2 : padsSpec (FpItem.pad pr :: rest) = pr.value :: padsSpec rest := by
        simp [padsSpec]
      rw [e1, e2, List.map_cons,
        capture_toRawPad pr (padWfB_parts hwf).1, ih hrest]

theorem lineCapturesSpec_map : ∀ (items : List FpItem),
    (lineCapturesSpec items).map LineCapture.toRawLine = linesSpec items := by
  intro items
  induction items with
  | nil => rfl
  | cons it rest ih =>
    cases it with
    | garbage g =>
      have e1 : lineCapturesSpec (FpItem.garbage g :: rest) = lineCapturesSpec rest := by
        simp [lineCapturesSpec]
      have e2 : linesSpec (FpItem.garbage g :: rest) = linesSpec rest := by
        simp [linesSpec]
      rw [e1, e2]
      exact ih
    | pad pr =>
      have e1 : lineCapturesSpec (FpItem.pad pr :: rest) = lineCapturesSpec rest := by
        simp [lineCapturesSpec]
      have e2 : linesSpec (FpItem.pad pr :: rest) = linesSpec rest := by
        simp [linesSpec]
      rw [e1, e2]
      exact ih
    | line lr =>
      have e1 : lineCapturesSpec (FpItem.line lr :: rest)
          = lr.capture :: lineCapturesSpec rest := by
        simp [lineCapturesSpec]
      have e2 : linesSpec (FpItem.line lr :: rest) = lr.value :: linesSpec rest := by
        simp [linesSpec]
      rw [e1, e2, List.map_cons, ih]
      rfl

theorem parsePads_canonical (items : List FpItem) (h : ∀ it ∈ items, it.wfB = true) :
    parsePads (itemsRender items) = padsSpec items := by
  rw [parsePads, scanPads,
    scanPads_canonical items h (itemsRender items).length (le_refl _)]
  exact padCapturesSpec_map items h

theorem parseLines_canonical (items : List FpItem) (h : ∀ it ∈ items, it.wfB = true) :
    parseLines (itemsRender items) = linesSpec items := by
  rw [parseLines, scanLines,
    scanLines_canonical items h (itemsRender items).length (le_refl _)]
  exact lineCapturesSpec_map items

theorem padsSpec_length : ∀ items : List FpItem,
    (padsSpec items).length = (items.filter isPadItem).length := by
  intro items
  induction items with
  | nil => rfl
  | cons it rest ih =>
    cases it <;> simp [padsSpec, isPadItem, List.filter_cons] <;>
      simpa [padsSpec, isPadItem] using ih

theorem linesSpec_length : ∀ items : List FpItem,
    (linesSpec items).length = (items.filter isLineItem).length := by
  intro items
  induction items with
  | nil => rfl
  | cons it rest ih =>
    cases it <;> simp [linesSpec, isLineItem, List.filter_cons] <;>
      simpa [linesSpec, isLineItem] using ih

/-! ## C1: coordinate mapper -/

/-- C1: for a nonempty parsed geometry set, the mapper's bounding box is
the min/max of the pad extents (`center ± size/2`) and the line
endpoints, expanded by `1.5` on every side; the scale is the minimum of
`(w − 40)/boundingWidth` and `(h − 40)/boundingHeight`; and the origin
maps the bounding-box centre exactly onto the viewport centre under
`screen = origin + board ⋅ scale` on both axes. -/
theorem C1_coordinate_mapper (w h : ℚ) (pads : List Pad) (segs : List Seg)
    (hne : pads ≠ [] ∨ segs ≠ []) :
    (computeBounds pads segs).minX = qmin (coordsX pads segs) - 1.5
    ∧ (computeBounds pads segs).maxX = qmax (coordsX pads segs) + 1.5
    ∧ (computeBounds pads segs).minY = qmin (coordsY pads segs) - 1.5
    ∧ (computeBounds pads segs).maxY = qmax (coordsY pads segs) + 1.5
    ∧ (computeTransform w h pads segs).scale
        = min ((w - 40) / ((computeBounds pads segs).maxX - (computeBounds pads segs).minX))
            ((h - 40) / ((computeBounds pads segs).maxY - (computeBounds pads segs).minY))
    ∧ (computeTransform w h pads segs).centerX
        + ((computeBounds pads segs).minX + (computeBounds pads segs).maxX) / 2
          * (computeTransform w h pads segs).scale = w / 2
    ∧ (computeTransform w h pads segs).centerY
        + ((computeBounds pads segs).minY + (computeBounds pads segs).maxY) / 2
          * (computeTransform w h pads segs).scale = h / 2 := by
  have hc : (pads.isEmpty && segs.isEmpty) = false := by
    rcases hne with h1 | h1 <;> cases pads <;> cases segs <;> simp_all [List.isEmpty]
  refine ⟨?_, ?_, ?_, ?_, rfl, ?_, ?_⟩
  · simp [computeBounds, hc]
  · simp [computeBounds, hc]
  · simp [computeBounds, hc]
  · simp [computeBounds, hc]
  · simp only [computeTransform]; ring
  · simp only [computeTransform]; ring

theorem C1_coordinate_mapper_witness :
    (([padC1] : List Pad) ≠ [] ∨ ([] : List Seg) ≠ [])
    ∧ (computeTransform 400 400 [padC1] []).centerX
        + ((computeBounds [padC1] []).minX + (computeBounds [padC1] []).maxX) / 2
          * (computeTransform 400 400 [padC1] []).scale = 400 / 2
    ∧ (computeTransform 400 400 [padC1] []).scale
        = min ((400 - 40) / ((computeBounds [padC1] []).maxX - (computeBounds [padC1] []).minX))
            ((400 - 40) / ((computeBounds [padC1] []).maxY - (computeBounds [padC1] []).minY)) :=
  ⟨Or.inl (List.cons_ne_nil padC1 []),
   (C1_coordinate_mapper 400 400 [padC1] [] (Or.inl (List.cons_ne_nil padC1 []))).2.2.2.2.2.1,
   (C1_coordinate_mapper 400 400 [padC1] [] (Or.inl (List.cons_ne_nil padC1 []))).2.2.2.2.1⟩

/-! ## C2: schematic hit target -/

theorem slotHitY_pinsC2 (s : SchSlot) (h : s.sideCount = 1) (h2 : s.idx = 0) :
    slotHitY pinsC2 s = 100 := by
  have hl : layoutSides pinsC2 = ([pinIn1], [pinOut2]) := by decide
  rw [slotHitY, slotY, schCenterY, schCanvasH, schBoxHeight, hl, h, h2]
  norm_num [pinSpacing, max_def]

/-- C2 (counterexample): the click `(72, 100)` lies within distance 20 of
the drawn outer endpoint `(90, 100)` of pin 1's lead, yet the hit test
selects nothing — the click target is not centred on the drawn endpoint. -/
theorem C2_cex :
    slotC2 ∈ schSlots pinsC2
    ∧ (72 - leadOuterX slotC2.isLeft) ^ 2 + (100 - slotHitY pinsC2 slotC2) ^ 2 < 400
    ∧ schHitTest pinsC2 72 100 = none
    ∧ schClickUpdate pinsC2 72 100 none = none := by
  have hy : slotHitY pinsC2 slotC2 = 100 := slotHitY_pinsC2 slotC2 rfl rfl
  have hyR : slotHitY pinsC2 { isLeft := false, idx := 0, sideCount := 1, pin := pinOut2 }
      = 100 := slotHitY_pinsC2 _ rfl rfl
  have hsl : schSlots pinsC2
      = [slotC2, { isLeft := false, idx := 0, sideCount := 1, pin := pinOut2 }] := by decide
  have hb1 : slotHitB pinsC2 72 100 slotC2 = false := by
    simp only [slotHitB, hy, decide_eq_false_iff_not]
    norm_num [hitCenterX, slotC2, schCanvasW, schBoxW]
  have hb2 : slotHitB pinsC2 72 100
      { isLeft := false, idx := 0, sideCount := 1, pin := pinOut2 } = false := by
    simp only [slotHitB, hyR, decide_eq_false_iff_not]
    norm_num [hitCenterX, schCanvasW, schBoxW]
  have hnone : schHitTest pinsC2 72 100 = none := by
    rw [schHitTest, hsl]
    simp [hb1, hb2]
  refine ⟨by decide, ?_, hnone, ?_⟩
  · rw [hy]
    norm_num [leadOuterX, slotC2, schCanvasW, schBoxW, pinLen]
  · simp [schClickUpdate, hnone]

/-- C2 (amended): each laid-out pin's circular click target of radius 20
is centred 15 units outward from the box edge at the pin's slot y — i.e.
at the midpoint of the drawn 30-unit lead, 15 units short of its drawn
outer endpoint.  A click within 20 units of that centre (and of no other
pin's centre, targets being disjoint in practice) selects the pin. -/
theorem C2_hit_target (pins : List PinInfo) (x y : ℚ) (s : SchSlot)
    (hs : s ∈ schSlots pins) (hin : slotHitB pins x y s = true)
    (hu : ∀ s2 ∈ schSlots pins, slotHitB pins x y s2 = true →
      s2.pin.pin_number = s.pin.pin_number) :
    schHitTest pins x y = some s.pin.pin_number
    ∧ hitCenterX s.isLeft = leadOuterX s.isLeft + (if s.isLeft then 15 else -15) := by
  constructor
  · exact foldl_hit_eq (slotHitB pins x y) (fun s2 => s2.pin.pin_number) s hin
      (schSlots pins) none hs hu
  · cases hl : s.isLeft <;>
      simp [hitCenterX, leadOuterX, hl, schCanvasW, schBoxW, pinLen] <;> norm_num

theorem C2_hit_target_witness :
    slotC2 ∈ schSlots pinsC2 ∧ slotHitB pinsC2 105 100 slotC2 = true
    ∧ schHitTest pinsC2 105 100 = some "1" := by
  have hy : slotHitY pinsC2 slotC2 = 100 := slotHitY_pinsC2 slotC2 rfl rfl
  have hyR : slotHitY pinsC2 { isLeft := false, idx := 0, sideCount := 1, pin := pinOut2 }
      = 100 := slotHitY_pinsC2 _ rfl rfl
  have hin : slotHitB pinsC2 105 100 slotC2 = true := by
    simp only [slotHitB, hy, decide_eq_true_eq]
    norm_num [hitCenterX, slotC2, schCanvasW, schBoxW]
  have hbR : slotHitB pinsC2 105 100
      { isLeft := false, idx := 0, sideCount := 1, pin := pinOut2 } = false := by
    simp only [slotHitB, hyR, decide_eq_false_iff_not]
    norm_num [hitCenterX, schCanvasW, schBoxW]
  have hu : ∀ s2 ∈ schSlots pinsC2, slotHitB pinsC2 105 100 s2 = true →
      s2.pin.pin_number = slotC2.pin.pin_number := by
    have hsl : schSlots pinsC2
        = [slotC2, { isLeft := false, idx := 0, sideCount := 1, pin := pinOut2 }] := by
      decide
    rw [hsl]
    intro s2 hs2 hhit
    rcases List.mem_cons.mp hs2 with h1 | h1
    · rw [h1]
    · rcases List.mem_cons.mp h1 with h2 | h2
      · rw [h2] at hhit
        rw [hbR] at hhit
        cases hhit
      · cases h2
  exact ⟨by decide, hin, (C2_hit_target pinsC2 105 100 slotC2 (by decide) hin hu).1⟩

/-! ## C3: non-positive pad sizes are not dropped -/

theorem jsq_zero : jsParseFloat ['0'] = some 0 := by
  have h : jsParseParts ['0'] = some (false, 0, 0, 0) := by decide
  rw [jsParseFloat, h]
  norm_num [partsVal]

theorem jsq_one : jsParseFloat ['1'] = some 1 := by
  have h : jsParseParts ['1'] = some (false, 1, 0, 0) := by decide
  rw [jsParseFloat, h]
  norm_num [partsVal]

theorem jsq_two : jsParseFloat ['2'] = some 2 := by
  have h : jsParseParts ['2'] = some (false, 2, 0, 0) := by decide
  rw [jsParseFloat, h]
  norm_num [partsVal]

theorem jsq_three : jsParseFloat ['3'] = some 3 := by
  have h : jsParseParts ['3'] = some (false, 3, 0, 0) := by decide
  rw [jsParseFloat, h]
  norm_num [partsVal]

theorem jsq_four : jsParseFloat ['4'] = some 4 := by
  have h : jsParseParts ['4'] = some (false, 4, 0, 0) := by decide
  rw [jsParseFloat, h]
  norm_num [partsVal]

theorem jsq_five : jsParseFloat ['5'] = some 5 := by
  have h : jsParseParts ['5'] = some (false, 5, 0, 0) := by decide
  rw [jsParseFloat, h]
  norm_num [partsVal]

theorem jsq_six : jsParseFloat ['6'] = some 6 := by
  have h : jsParseParts ['6'] = some (false, 6, 0, 0) := by decide
  rw [jsParseFloat, h]
  norm_num [partsVal]

theorem jsq_neg_one : jsParseFloat ['-', '1'] = some (-1) := by
  have h : jsParseParts ['-', '1'] = some (true, 1, 0, 0) := by decide
  rw [jsParseFloat, h]
  norm_num [partsVal]

theorem jsq_dot : jsParseFloat ['.'] = none := by
  have h : jsParseParts ['.'] = none := by decide
  rw [jsParseFloat, h]
  rfl

theorem transformC3 :
    footprintTransform [padC3] [] = { centerX := 200, centerY := 200, scale := 72 } := by
  rw [footprintTransform, computeTransform]
  norm_num [fitScale, computeBounds, coordsX, coordsY, qmin, qmax, padC3,
    fpCanvasW, fpCanvasH, min_def, max_def]

/-- C3 (counterexample): a pad record with size `-1 × 2` is parsed, kept,
converted to geometry with `width = -1 ≤ 0`, and drawn by the renderer
(with a negative screen width) — it is not dropped anywhere. -/
theorem C3_cex :
    parsePads cexC3
      = [{ num := "1", x := some 0, y := some 0, width := some (-1), height := some 2 }]
    ∧ RawPad.toPad?
        { num := "1", x := some 0, y := some 0, width := some (-1), height := some 2 }
      = some padC3
    ∧ padC3.width ≤ 0
    ∧ drawnPadRects (footprintTransform [padC3] []) [padC3]
      = [drawnRect (footprintTransform [padC3] []) padC3]
    ∧ (drawnRect (footprintTransform [padC3] []) padC3).pw < 0 := by
  have hc : scanPads cexC3
      = [{ id := ['"', '1', '"'], xs := ['0'], ys := ['0'],
           ws := ['-', '1'], hs := ['2'] }] := by decide
  refine ⟨?_, rfl, by norm_num [padC3], rfl, ?_⟩
  · rw [parsePads, hc]
    simp [PadCapture.toRawPad, jsq_zero, jsq_neg_one, jsq_two]
    decide
  · rw [transformC3]
    norm_num [drawnRect, padC3]

/-- C3 (amended): no positivity filtering exists — the 2D renderer draws
exactly one rectangle per pad in the parsed list, regardless of the sign
of the pad's size fields. -/
theorem C3_no_drop (t : ViewTransform) (pads : List Pad) (p : Pad) (hp : p ∈ pads) :
    (drawnPadRects t pads).length = pads.length
    ∧ drawnRect t p ∈ drawnPadRects t pads :=
  ⟨List.length_map pads (drawnRect t), List.mem_map_of_mem (drawnRect t) hp⟩

theorem C3_no_drop_witness :
    padC3 ∈ [padC3]
    ∧ drawnRect (footprintTransform [padC3] []) padC3
        ∈ drawnPadRects (footprintTransform [padC3] []) [padC3]
    ∧ padC3.width ≤ 0 :=
  ⟨List.mem_singleton.mpr rfl,
   (C3_no_drop (footprintTransform [padC3] []) [padC3] padC3
      (List.mem_singleton.mpr rfl)).2,
   by norm_num [padC3]⟩

/-! ## C4: failed numeric parses -/

/-- C4 (counterexample): in `(pad "1" (at . 0) (size 1 1)) …` the x field
`.` fails float parsing; the resulting pad's x is NaN (`none`), not `0.0`
as the claim states, though the rest of the string is still parsed. -/
theorem C4_cex :
    parsePads cexC4
      = [{ num := "1", x := none, y := some 0, width := some 1, height := some 1 },
         { num := "2", x := some 3, y := some 4, width := some 5, height := some 6 }]
    ∧ (parsePads cexC4).map RawPad.x ≠ [some 0, some 3]
    ∧ jsParseFloat ['.'] = none := by
  have hc : scanPads cexC4
      = [{ id := ['"', '1', '"'], xs := ['.'], ys := ['0'], ws := ['1'], hs := ['1'] },
         { id := ['"', '2', '"'], xs := ['3'], ys := ['4'], ws := ['5'], hs := ['6'] }] := by
    decide
  have hp : parsePads cexC4
      = [{ num := "1", x := none, y := some 0, width := some 1, height := some 1 },
         { num := "2", x := some 3, y := some 4, width := some 5, height := some 6 }] := by
    rw [parsePads, hc]
    simp [PadCapture.toRawPad, jsq_dot, jsq_zero, jsq_one, jsq_three, jsq_four,
      jsq_five, jsq_six]
    decide
  refine ⟨hp, ?_, jsq_dot⟩
  rw [hp]
  simp

/-- C4 (amended): a numeric field whose text fails float parsing becomes
NaN (`none`), not `0.0`; the record still appears in the pad list and
every other record is still parsed (one list entry per pad item). -/
theorem C4_nan_fields (items : List FpItem) (r : PadRecordSrc)
    (h : ∀ it ∈ items, it.wfB = true) (hmem : FpItem.pad r ∈ items)
    (hx : jsParseParts r.xs = none) :
    r.value ∈ parsePads (itemsRender items)
    ∧ r.value.x = none
    ∧ (∀ q : ℚ, r.value.x ≠ some q)
    ∧ (parsePads (itemsRender items)).length = (items.filter isPadItem).length := by
  have hp := parsePads_canonical items h
  have hxnone : r.value.x = none := by
    show jsParseFloat r.xs = none
    rw [jsParseFloat, hx]
    rfl
  refine ⟨?_, hxnone, ?_, ?_⟩
  · rw [hp]
    exact List.mem_filterMap.mpr ⟨FpItem.pad r, hmem, rfl⟩
  · intro q hq
    rw [hxnone] at hq
    exact Option.noConfusion hq
  · rw [hp]
    exact padsSpec_length items

theorem C4_nan_fields_witness :
    ((∀ it ∈ witC4Items, it.wfB = true)
      ∧ FpItem.pad padRecC4 ∈ witC4Items
      ∧ jsParseParts padRecC4.xs = none)
    ∧ (padRecC4.value ∈ parsePads (itemsRender witC4Items)
       ∧ padRecC4.value.x = none
       ∧ (∀ q : ℚ, padRecC4.value.x ≠ some q)
       ∧ (parsePads (itemsRender witC4Items)).length
           = (witC4Items.filter isPadItem).length) :=
  ⟨⟨by decide, by decide, by decide⟩,
   C4_nan_fields witC4Items padRecC4 (by decide) (by decide) (by decide)⟩

/-! ## C5: rebalancing -/

/-- C5: with at least two pins, if the default classification leaves one
side empty and the other side holding every pin, the layout moves exactly
the first `⌈n/2⌉` pins of the nonempty side to the empty side, keeping
the original relative order on both resulting sides. -/
theorem C5_rebalance (pins : List PinInfo) (h2 : 2 ≤ pins.length) :
    (pins.filter isLeftPin = [] →
      layoutSides pins
        = (pins.take ((pins.length + 1) / 2), pins.drop ((pins.length + 1) / 2)))
    ∧ (pins.filter (fun p => !isLeftPin p) = [] →
      layoutSides pins
        = (pins.drop ((pins.length + 1) / 2), pins.take ((pins.length + 1) / 2))) := by
  have hne : pins ≠ [] := by
    intro h
    rw [h] at h2
    simp at h2
  constructor
  · intro hl
    have hr : pins.filter (fun p => !isLeftPin p) = pins := by
      refine List.filter_eq_self.mpr fun a ha => ?_
      have := List.filter_eq_nil_iff.mp hl a ha
      simp_all
    simp [layoutSides, hl, hr, List.isEmpty_iff, hne]
  · intro hr
    have hl : pins.filter isLeftPin = pins := by
      refine List.filter_eq_self.mpr fun a ha => ?_
      have := List.filter_eq_nil_iff.mp hr a ha
      simp_all
    simp [layoutSides, hl, hr, List.isEmpty_iff, hne]

theorem C5_rebalance_witness :
    2 ≤ outPins4.length ∧ outPins4.filter isLeftPin = []
    ∧ layoutSides outPins4
        = (outPins4.take ((outPins4.length + 1) / 2),
           outPins4.drop ((outPins4.length + 1) / 2))
    ∧ (outPins4.take ((outPins4.length + 1) / 2)).length = 2 :=
  ⟨by decide, by decide, (C5_rebalance outPins4 (by decide)).1 (by decide), by decide⟩

/-! ## C6: empty-space clicks and the dismiss control -/

theorem transformC6 :
    footprintTransform [padC6] [] = { centerX := 200, centerY := 200, scale := 90 } := by
  rw [footprintTransform, computeTransform]
  norm_num [fitScale, computeBounds, coordsX, coordsY, qmin, qmax, padC6,
    fpCanvasW, fpCanvasH, min_def, max_def]

theorem hitNoneC6 : footprintHitTest (footprintTransform [padC6] []) [padC6] 0 0 = none := by
  have hb : padHitB (footprintTransform [padC6] []) 0 0 padC6 = false := by
    rw [transformC6]
    simp only [padHitB, drawnRect, decide_eq_false_iff_not]
    norm_num [padC6]
  rw [footprintHitTest]
  simp [List.find?, hb]

/-- C6 (counterexample): with pad "1" selected, a click at `(0,0)` — empty
space, the hit test matches nothing — leaves the selection at `some "1"`
instead of clearing it to `none` as the claim states. -/
theorem C6_cex :
    footprintHitTest (footprintTransform [padC6] []) [padC6] 0 0 = none
    ∧ footprintClickUpdate (footprintTransform [padC6] []) [padC6] 0 0 (some "1")
        = some "1"
    ∧ (some "1" : Option String) ≠ none := by
  refine ⟨hitNoneC6, ?_, by simp⟩
  simp [footprintClickUpdate, hitNoneC6]

/-- C6 (amended): a click on empty space (hit test yields nothing) leaves
`selectedPinNumber` unchanged in both 2D renderers; only the dismiss
control resets it to `none`. -/
theorem C6_empty_click (t : ViewTransform) (pads : List Pad) (pins : List PinInfo)
    (x y : ℚ) (sel : Option String) (st : PreviewUIState)
    (hf : footprintHitTest t pads x y = none) (hs : schHitTest pins x y = none) :
    footprintClickUpdate t pads x y sel = sel
    ∧ schClickUpdate pins x y sel = sel
    ∧ (uiStep st UIEvent.dismiss).sel = none := by
  refine ⟨?_, ?_, rfl⟩
  · simp [footprintClickUpdate, hf]
  · simp [schClickUpdate, hs]

theorem C6_empty_click_witness :
    footprintHitTest (footprintTransform [padC6] []) [padC6] 0 0 = none
    ∧ footprintClickUpdate (footprintTransform [padC6] []) [padC6] 0 0 (some "2")
        = some "2" :=
  ⟨hitNoneC6,
   (C6_empty_click (footprintTransform [padC6] []) [padC6] [] 0 0 (some "2")
      { result := none, sel := none } hitNoneC6 rfl).1⟩

/-! ## C7: degenerate-geometry fallback -/

/-- C7: with no pads and no lines the mapper uses the fallback bounding
box `[-5,5] × [-5,5]`, and the resulting scale is the well-defined
positive value `36 = (400-40)/10`; the origin is the viewport centre. -/
theorem C7_fallback_bounds :
    computeBounds [] [] = { minX := -5, maxX := 5, minY := -5, maxY := 5 }
    ∧ (footprintTransform [] []).scale = 36
    ∧ 0 < (footprintTransform [] []).scale
    ∧ (footprintTransform [] []).centerX = fpCanvasW / 2
    ∧ (footprintTransform [] []).centerY = fpCanvasH / 2 := by
  have hs : (footprintTransform [] []).scale = 36 := by
    rw [footprintTransform, computeTransform]
    norm_num [fitScale, computeBounds, fpCanvasW, fpCanvasH, min_def]
  refine ⟨rfl, hs, ?_, ?_, ?_⟩
  · rw [hs]
    norm_num
  · rw [footprintTransform, computeTransform]
    norm_num [fitScale, computeBounds, fpCanvasW, fpCanvasH, min_def]
  · rw [footprintTransform, computeTransform]
    norm_num [fitScale, computeBounds, fpCanvasW, fpCanvasH, min_def]

/-! ## C8: parsing interleaved records -/

/-- C8 (counterexample): garbage may not be arbitrary — the fragment
`(pad junk ` in front of a well-formed pad record makes the scanner
match from the garbage's `(pad` anchor and capture `junk` as the
identifier, so the single returned pad does not carry the values written
in the one well-formed record. -/
theorem C8_cex :
    scanPads (itemsRender cex8Items)
      = [{ id := ['j', 'u', 'n', 'k'], xs := ['1'], ys := ['2'],
           ws := ['3'], hs := ['4'] }]
    ∧ (parsePads (itemsRender cex8Items)).map RawPad.num = ["junk"]
    ∧ (padsSpec cex8Items).map RawPad.num = ["1"]
    ∧ (cex8Items.filter isPadItem).length = 1
    ∧ parenFreeB ("(pad junk ".toList) = false
    ∧ parsePads (itemsRender cex8Items) ≠ padsSpec cex8Items := by
  have h2 : (parsePads (itemsRender cex8Items)).map RawPad.num = ["junk"] := by
    decide
  have h3 : (padsSpec cex8Items).map RawPad.num = ["1"] := by decide
  refine ⟨by decide, h2, h3, by decide, by decide, ?_⟩
  intro he
  rw [he, h3] at h2
  exact absurd h2 (by decide)

/-- C8 (amended): for an interleaving of well-formed pad records,
well-formed line records and garbage that contains no `'('` character,
the parser returns exactly the records' values, in order: one `RawPad`
per pad item with quote-stripped identifier, `parseFloat` of each
written numeric field and the rotation field ignored, one `RawLine` per
line item, so in particular exactly N pads and M lines. -/
theorem C8_parse_canonical (items : List FpItem)
    (h : ∀ it ∈ items, it.wfB = true) :
    parsePads (itemsRender items) = padsSpec items
    ∧ parseLines (itemsRender items) = linesSpec items
    ∧ (parsePads (itemsRender items)).length = (items.filter isPadItem).length
    ∧ (parseLines (itemsRender items)).length = (items.filter isLineItem).length := by
  refine ⟨parsePads_canonical items h, parseLines_canonical items h, ?_, ?_⟩
  · rw [parsePads_canonical items h]
    exact padsSpec_length items
  · rw [parseLines_canonical items h]
    exact linesSpec_length items

theorem C8_parse_canonical_witness :
    (∀ it ∈ witItems, it.wfB = true)
    ∧ (parsePads (itemsRender witItems) = padsSpec witItems
       ∧ parseLines (itemsRender witItems) = linesSpec witItems
       ∧ (parsePads (itemsRender witItems)).length
           = (witItems.filter isPadItem).length
       ∧ (parseLines (itemsRender witItems)).length
           = (witItems.filter isLineItem).length) :=
  ⟨by decide, C8_parse_canonical witItems (by decide)⟩

/-! ## C9: selection lifecycle -/

/-- C9 (counterexample): with bundle A displayed and pin "3" selected,
loading a different bundle B leaves `selectedPinNumber` at `some "3"` —
it is not reset to `none` as the claim states. -/
theorem C9_cex :
    (uiStep { result := some bundleA, sel := some "3" }
        (UIEvent.loadBundle bundleB)).sel = some "3"
    ∧ (uiStep { result := some bundleA, sel := some "3" }
        (UIEvent.loadBundle bundleB)).result = some bundleB
    ∧ bundleB ≠ bundleA
    ∧ (some "3" : Option String) ≠ none := by decide

/-- C9 (amended): re-renders of the same bundle leave `selectedPinNumber`
unchanged; loading a new bundle while one is already displayed also
leaves it unchanged (the hook state persists because the component stays
mounted); it starts as `none` only when the preview mounts afresh, i.e.
when `result` was `null` before the new bundle arrived. -/
theorem C9_selection_lifecycle (st : PreviewUIState) (d : FootprintDataM) :
    uiStep st UIEvent.rerender = st
    ∧ (st.result ≠ none →
        uiStep st (UIEvent.loadBundle d) = { result := some d, sel := st.sel })
    ∧ (st.result = none →
        uiStep st (UIEvent.loadBundle d) = { result := some d, sel := none }) := by
  refine ⟨rfl, ?_, ?_⟩
  · intro h
    cases hr : st.result with
    | none => exact absurd hr h
    | some v => simp [uiStep, hr]
  · intro h
    simp [uiStep, h]

theorem C9_selection_lifecycle_witness :
    ({ result := some bundleA, sel := some "3" } : PreviewUIState).result ≠ none
    ∧ uiStep { result := some bundleA, sel := some "3" } (UIEvent.loadBundle bundleB)
        = { result := some bundleB, sel := some "3" } :=
  ⟨by decide,
   (C9_selection_lifecycle { result := some bundleA, sel := some "3" } bundleB).2.1
     (by decide)⟩

/-! ## C10: default 3D leads -/

/-- C10: when `pinCount` is absent or `0`, the 3D renderer generates
exactly 8 leads numbered "1"–"8", the first four on one long edge and the
last four on the other, and the bundle's pin list plays no role. -/
theorem C10_default_leads (d : FootprintDataM)
    (h : d.pinCount = none ∨ d.pinCount = some 0) :
    (componentLeads d).map Lead3D.num = ["1", "2", "3", "4", "5", "6", "7", "8"]
    ∧ ((componentLeads d).filter (fun l => decide (l.side = -1))).map Lead3D.num
        = ["1", "2", "3", "4"]
    ∧ ((componentLeads d).filter (fun l => decide (l.side = 1))).map Lead3D.num
        = ["5", "6", "7", "8"]
    ∧ ∀ ps, componentLeads { d with pins := ps } = componentLeads d := by
  have hpc : pinCountOr8 d.pinCount = 8 := by
    rcases h with h1 | h1 <;> simp [pinCountOr8, h1]
  refine ⟨?_, ?_, ?_, fun ps => rfl⟩ <;>
    simp [componentLeads, hpc, List.range_succ, List.filter_append, List.map_append] <;>
    norm_num <;> repeat (first | exact rfl | constructor)

theorem C10_default_leads_witness :
    (bundleA.pinCount = none ∨ bundleA.pinCount = some 0)
    ∧ (componentLeads bundleA).map Lead3D.num
        = ["1", "2", "3", "4", "5", "6", "7", "8"] :=
  ⟨Or.inl rfl, (C10_default_leads bundleA (Or.inl rfl)).1⟩

end PartLib
